import Mathlib

/-!
# Dual-priority promotion subsystem (litmus/fp_common.c, litmus/budget.c)

A shallow embedding of the dual-priority record list of `fp_common.c` and of the
promotion timer controller of `budget.c`.

* `lt_t` (unsigned 64-bit time) is a `Nat`, every arithmetic result reduced `% 2 ^ 64`.
* `int` is an `Int`; the two `++` counters are reduced to the 32-bit signed range.
* The kernel list `dp_ListHead` is a `List dp_list` in traversal order
  (`__list_for_each` from the head); `list_add` links a new node right after the head,
  so it becomes the first element.
* The globals (`dp_ListHead`, the per-CPU `budget_timer`, `PID_No_To_Trigger`) are the
  fields of `State`; one processing unit is modelled.
* `add_dp_node` allocates its node with `kmalloc(sizeof(struct dp_list *))`; the two sizes
  and the allocator's answer are the `Layout` it is given, and the insertion has no result
  (`none`) when the pointer is NULL or the record does not fit in the block.
* Trace output and the reschedule request have no effect on the modelled state.
* `find_task_by_vpid`, `is_np` and `litmus_clock` belong to the surrounding kernel: the
  lookup function and the clock value are arguments of the controller, `is_np` is a field of
  the task handle.
-/

namespace DPSched

/-! ## Machine integers -/

/-- Number of values of an `lt_t` (unsigned 64-bit). -/
def LT_MOD : Nat := 2 ^ 64

/-- Unsigned 64-bit addition. -/
def lt_add (a b : Nat) : Nat := (a + b) % LT_MOD

/-- Unsigned 64-bit subtraction `a - b` (wraps around below zero). -/
def lt_sub (a b : Nat) : Nat := (a % LT_MOD + LT_MOD - b % LT_MOD) % LT_MOD

/-- Reduction of an integer to the range of a 32-bit `int` (two's complement). -/
def int_wrap (i : Int) : Int := (i + 2 ^ 31) % 2 ^ 32 - 2 ^ 31

/-- Conversion `lt_t` to `int` (keeps the low 32 bits). -/
def lt_to_int (n : Nat) : Int := int_wrap (n : Int)

/-- Conversion `int` to `lt_t` (sign extension, then reduction to 64 bits). -/
def int_to_lt (i : Int) : Nat := (i % (2 ^ 64 : Int)).toNat

/-- The 64-bit pattern `n` read as a signed (two's complement) number. -/
def lt_to_signed (n : Nat) : Int := ((n : Int) + 2 ^ 63) % 2 ^ 64 - 2 ^ 63

/-! ## Data model -/

/-- Modelled from the spec: `struct dp_list` is declared in `litmus/fp_common.h`, which is
not among the sources. The fields are the ones `add_dp_node` assigns, each with the type of
the parameter it is assigned from (`int` or `lt_t`); they are the Task Record of the
specification (id, C, D, base priority, promoted priority, promotion point, timer state,
release time). An `lt_t` field holds the 64-bit pattern as a number below `2 ^ 64`; the
sources do not settle whether `dp_PrPoint` is read as signed, so where that matters a
statement gives both readings of the pattern (`lt_to_signed` is the signed one). The
embedded `list_head` is the position in the `List`. -/
structure dp_list where
  dp_pid : Int
  tsk_C : Nat
  tsk_D : Nat
  pfp_priority : Int
  dp_priority : Int
  dp_PrPoint : Nat
  dp_timerStatus : Int
  dp_time_to_fired : Nat
deriving DecidableEq, Repr

/-- The list hanging off `dp_ListHead`, in traversal order. -/
abbrev Store := List dp_list

/-- Timer states of a record (`dp_timerStatus`). -/
def Pending : Int := 0
/-- Released, waiting for the timer. -/
def AwaitingArm : Int := 1
/-- The timer is programmed for this record. -/
def Armed : Int := 2
/-- The timer of this record has elapsed. -/
def Fired : Int := 3

/-! ## fp_common.c : the record store -/

/-- The list with one more node, holding the given field values, linked right after the list
head: what `list_add` leaves once a node holding the record exists. Lists are written down
with it. -/
def link_node (s : Store) (PID : Int) (tsk_C tsk_D : Nat) (pfp_priority dp_priority : Int)
    (dp_PrPoint : Nat) (tmrStatus : Int) (time_to_fired : Nat) : Store :=
  { dp_pid := PID, tsk_C := tsk_C, tsk_D := tsk_D, pfp_priority := pfp_priority,
    dp_priority := dp_priority, dp_PrPoint := dp_PrPoint, dp_timerStatus := tmrStatus,
    dp_time_to_fired := time_to_fired } :: s

/-- What `add_dp_node` depends on outside the sources: the value of
`sizeof(struct dp_list *)`, the value of `sizeof(struct dp_list)` (the struct is declared in
the absent header), and the allocator: `kmalloc n` is `none` for a NULL result and otherwise
the number of bytes of the block returned for a request of `n` bytes. -/
structure Layout where
  sizeof_dp_list_ptr : Nat
  sizeof_dp_list : Nat
  kmalloc : Nat → Option Nat

/-- `add_dp_node`: the node is allocated with `kmalloc(sizeof(struct dp_list *))`, the
pointer is not checked, and the eight fields and the `list_head` are written through it
before `list_add` links the node right after the list head. There is no result (`none`) when
this is undefined: the pointer is NULL, or the block is smaller than the record, so that the
writes run past it. -/
def add_dp_node (L : Layout) (s : Store) (PID : Int) (tsk_C tsk_D : Nat)
    (pfp_priority dp_priority : Int) (dp_PrPoint : Nat) (tmrStatus : Int)
    (time_to_fired : Nat) : Option Store :=
  match L.kmalloc L.sizeof_dp_list_ptr with
  | none => none
  | some block =>
    if L.sizeof_dp_list ≤ block then
      some (link_node s PID tsk_C tsk_D pfp_priority dp_priority dp_PrPoint tmrStatus
        time_to_fired)
    else none

/-- `dp_Size`: counts the nodes in an `int`. -/
def dp_Size (s : Store) : Int :=
  s.foldl (fun sizeOfData _ => int_wrap (sizeOfData + 1)) 0

/-- `dp_delete_all`: unlinks every node. -/
def dp_delete_all (_s : Store) : Store := []

/-- `dp_find_first_and_delete`: unlinks the first node with the given pid; the result is
the returned flag and the new list. -/
def dp_find_first_and_delete : Store → Int → Int × Store
  | [], _ => (0, [])
  | objPtr :: rest, PID =>
    if objPtr.dp_pid = PID then (1, rest)
    else ((dp_find_first_and_delete rest PID).1, objPtr :: (dp_find_first_and_delete rest PID).2)

/-- `dp_get_Pri2`. -/
def dp_get_Pri2 (s : Store) (PID : Int) : Int :=
  match s.find? (fun objPtr => decide (objPtr.dp_pid = PID)) with
  | some objPtr => objPtr.dp_priority
  | none => 0

/-- `dp_get_Pri1`. -/
def dp_get_Pri1 (s : Store) (PID : Int) : Int :=
  match s.find? (fun objPtr => decide (objPtr.dp_pid = PID)) with
  | some objPtr => objPtr.pfp_priority
  | none => 0

/-- `dp_set_Pri2`: every node with the given pid gets the value. -/
def dp_set_Pri2 (s : Store) (PID : Int) (Pri2 : Int) : Store :=
  s.map (fun objPtr => if objPtr.dp_pid = PID then { objPtr with dp_priority := Pri2 } else objPtr)

/-- `dp_get_PrPoint`: the value goes through the local `int PrPoint` before it is returned
as an `lt_t`. -/
def dp_get_PrPoint (s : Store) (PID : Int) : Nat :=
  match s.find? (fun objPtr => decide (objPtr.dp_pid = PID)) with
  | some objPtr => int_to_lt (lt_to_int objPtr.dp_PrPoint)
  | none => 0

/-- `dp_set_PrPoint`: every node with the given pid gets the value. -/
def dp_set_PrPoint (s : Store) (PID : Int) (PrPoint : Nat) : Store :=
  s.map (fun objPtr => if objPtr.dp_pid = PID then { objPtr with dp_PrPoint := PrPoint } else objPtr)

/-- `dp_Find_PID`. -/
def dp_Find_PID (s : Store) (PID : Int) : Int :=
  s.foldl (fun status objPtr => if objPtr.dp_pid = PID then 1 else status) 0

/-- Inner loop of `calculate_Pri2_RM`: `pri2` starts at 1 and is incremented for every node
whose deadline is below `DeadLine_Val`. -/
def calculate_Pri2_RM_inner (s : Store) (DeadLine_Val : Nat) : Int :=
  s.foldl (fun pri2 objPtr2 => if DeadLine_Val > objPtr2.tsk_D then int_wrap (pri2 + 1) else pri2) 1

/-- `calculate_Pri2_RM`: the outer loop visits the nodes in order (node number `i` of the
current list) and stores the rank through `dp_set_Pri2`. -/
def calculate_Pri2_RM (s : Store) : Store :=
  (List.range s.length).foldl
    (fun st i =>
      match st[i]? with
      | none => st
      | some objPtr1 =>
        dp_set_Pri2 st objPtr1.dp_pid (calculate_Pri2_RM_inner st objPtr1.tsk_D))
    s

/-- Inner loop of `calculate_ProPoint`: `HWCET_Val` accumulates the execution times of the
nodes whose `pfp_priority` is numerically below that of `objPtr1`. -/
def calculate_ProPoint_inner (s : Store) (objPtr1 : dp_list) : Nat :=
  s.foldl
    (fun HWCET_Val objPtr2 =>
      if objPtr1.pfp_priority > objPtr2.pfp_priority then lt_add HWCET_Val objPtr2.tsk_C
      else HWCET_Val)
    0

/-- `calculate_ProPoint`: the outer loop visits the nodes in order and stores
`DeadLine_Val - WCET_Val - HWCET_Val` through `dp_set_PrPoint`. -/
def calculate_ProPoint (s : Store) : Store :=
  (List.range s.length).foldl
    (fun st i =>
      match st[i]? with
      | none => st
      | some objPtr1 =>
        dp_set_PrPoint st objPtr1.dp_pid
          (lt_sub (lt_sub objPtr1.tsk_D objPtr1.tsk_C) (calculate_ProPoint_inner st objPtr1)))
    s

/-- `dp_get_tmrStatus`. -/
def dp_get_tmrStatus (s : Store) (PID : Int) : Int :=
  match s.find? (fun objPtr => decide (objPtr.dp_pid = PID)) with
  | some objPtr => objPtr.dp_timerStatus
  | none => 0

/-- `dp_set_tmrStatus`: every node with the given pid gets the value. -/
def dp_set_tmrStatus (s : Store) (PID : Int) (tmrStatus : Int) : Store :=
  s.map (fun objPtr =>
    if objPtr.dp_pid = PID then { objPtr with dp_timerStatus := tmrStatus } else objPtr)

/-- `dp_get_Armed_PID`. -/
def dp_get_Armed_PID (s : Store) : Int :=
  match s.find? (fun objPtr => decide (objPtr.dp_timerStatus = 2)) with
  | some objPtr => objPtr.dp_pid
  | none => 0

/-- `dp_get_PID_from_fireTask`. -/
def dp_get_PID_from_fireTask (s : Store) : Int :=
  match s.find? (fun objPtr => decide (objPtr.dp_timerStatus = 3)) with
  | some objPtr => objPtr.dp_pid
  | none => 0

/-- `dp_is_TimerARM`: 1 when some node has `1 < dp_timerStatus < 4`. -/
def dp_is_TimerARM (s : Store) : Int :=
  match s.find? (fun objPtr => decide (objPtr.dp_timerStatus > 1 ∧ objPtr.dp_timerStatus < 4)) with
  | some _ => 1
  | none => 0

/-- `dp_get_time_to_Fire`: release time plus promotion point, as an `lt_t`. -/
def dp_get_time_to_Fire (s : Store) (PID : Int) : Nat :=
  match s.find? (fun objPtr => decide (objPtr.dp_pid = PID)) with
  | some objPtr => lt_add objPtr.dp_time_to_fired objPtr.dp_PrPoint
  | none => 0

/-- `dp_set_time_Released`: every node with the given pid gets the value. -/
def dp_set_time_Released (s : Store) (PID : Int) (time_to_Fire_Value : Nat) : Store :=
  s.map (fun objPtr =>
    if objPtr.dp_pid = PID then { objPtr with dp_time_to_fired := time_to_Fire_Value } else objPtr)

/-- One iteration of the loop of `dp_get_PID_earliest_trigger_time` over the list `s`; the
accumulator is `(earliest_Prom_Point, dp_PID_No)`. -/
def earliest_step (s : Store) (acc : Nat × Int) (objPtr1 : dp_list) : Nat × Int :=
  if acc.1 = 0 ∧ dp_get_tmrStatus s objPtr1.dp_pid = 1 then
    (dp_get_time_to_Fire s objPtr1.dp_pid, objPtr1.dp_pid)
  else if acc.1 > dp_get_time_to_Fire s objPtr1.dp_pid ∧ dp_get_tmrStatus s objPtr1.dp_pid = 1 then
    (dp_get_time_to_Fire s objPtr1.dp_pid, objPtr1.dp_pid)
  else acc

/-- `dp_get_PID_earliest_trigger_time`. -/
def dp_get_PID_earliest_trigger_time (s : Store) : Int :=
  (s.foldl (earliest_step s) (0, 0)).2

/-! ## budget.c : the promotion timer controller -/

/-- `struct enforcement_timer`: of the `hrtimer` only the expiry it was last programmed
with is kept. -/
structure enforcement_timer where
  timer : Nat
  armed : Int
deriving DecidableEq, Repr

/-- The part of `struct task_struct` that the controller reads: the pid and the
non-preemptive flag tested by `is_np`. -/
structure task_struct where
  pid : Int
  is_np : Bool
deriving DecidableEq, Repr

/-- The globals of the two files on one processing unit. -/
structure State where
  dp_ListHead : Store
  budget_timer : enforcement_timer
  PID_No_To_Trigger : Int
deriving DecidableEq, Repr

/-- `init_budget_enforcement` together with the empty list: no record, timer not armed. -/
def State.init : State :=
  { dp_ListHead := [], budget_timer := { timer := 0, armed := 0 }, PID_No_To_Trigger := 0 }

/-- `on_enforcement_timeout`: clears `armed` and marks the record of `PID_No_To_Trigger`
fired (the reschedule request has no effect on this state). -/
def on_enforcement_timeout (st : State) : State :=
  { st with
    budget_timer := { st.budget_timer with armed := 0 }
    dp_ListHead := dp_set_tmrStatus st.dp_ListHead st.PID_No_To_Trigger 3 }

/-- `cancel_enforcement_timer`. -/
def cancel_enforcement_timer (st : State) : State :=
  if st.budget_timer.armed ≠ 0 then
    { st with budget_timer := { st.budget_timer with armed := 0 } }
  else st

/-- `arm_enforcement_timer`: programs the timer for the trigger time of `t` when `t` is
preemptible and its record is in state 2. -/
def arm_enforcement_timer (st : State) (t : task_struct) : State :=
  if t.is_np = false ∧ dp_get_tmrStatus st.dp_ListHead t.pid = 2 then
    { st with budget_timer := { timer := dp_get_time_to_Fire st.dp_ListHead t.pid, armed := 1 } }
  else st

/-- `update_enforcement_timer`: `find_task_by_vpid` and the value read from `litmus_clock`
are supplied by the environment; the task argument of the C function is not used. -/
def update_enforcement_timer (find_task_by_vpid : Int → Option task_struct) (litmus_clock : Nat)
    (st : State) : State :=
  if dp_Size st.dp_ListHead > 0 then
    let st1 : State :=
      if dp_is_TimerARM st.dp_ListHead = 0 then
        { st with PID_No_To_Trigger := dp_get_PID_earliest_trigger_time st.dp_ListHead }
      else st
    let dp_t : Option task_struct :=
      if st1.PID_No_To_Trigger > 0 then find_task_by_vpid st1.PID_No_To_Trigger else none
    match dp_t with
    | some t =>
      if dp_is_TimerARM st1.dp_ListHead = 0
          ∧ dp_get_tmrStatus st1.dp_ListHead st1.PID_No_To_Trigger = 1
          ∧ dp_get_time_to_Fire st1.dp_ListHead st1.PID_No_To_Trigger > litmus_clock then
        arm_enforcement_timer
          { st1 with dp_ListHead := dp_set_tmrStatus st1.dp_ListHead st1.PID_No_To_Trigger 2 } t
      else st1
    | none => st1
  else st

/-- `dp_update_enforcement_timer`: the same body as `update_enforcement_timer`. -/
def dp_update_enforcement_timer (find_task_by_vpid : Int → Option task_struct)
    (litmus_clock : Nat) (st : State) : State :=
  if dp_Size st.dp_ListHead > 0 then
    let st1 : State :=
      if dp_is_TimerARM st.dp_ListHead = 0 then
        { st with PID_No_To_Trigger := dp_get_PID_earliest_trigger_time st.dp_ListHead }
      else st
    let dp_t : Option task_struct :=
      if st1.PID_No_To_Trigger > 0 then find_task_by_vpid st1.PID_No_To_Trigger else none
    match dp_t with
    | some t =>
      if dp_is_TimerARM st1.dp_ListHead = 0
          ∧ dp_get_tmrStatus st1.dp_ListHead st1.PID_No_To_Trigger = 1
          ∧ dp_get_time_to_Fire st1.dp_ListHead st1.PID_No_To_Trigger > litmus_clock then
        arm_enforcement_timer
          { st1 with dp_ListHead := dp_set_tmrStatus st1.dp_ListHead st1.PID_No_To_Trigger 2 } t
      else st1
    | none => st1
  else st

/-! ## Vocabulary of the properties -/

/-- The identifiers of the records, in traversal order. -/
def ids (s : Store) : List Int := s.map (fun r => r.dp_pid)

/-- Sum of the execution times `C(B)` of the records `B` whose base priority is strictly
higher than that of `A` (`pfp_priority` numerically lower), as a natural number. -/
def higherSum (s : Store) (A : dp_list) : Nat :=
  ((s.filter (fun B => decide (B.pfp_priority < A.pfp_priority))).map (fun B => B.tsk_C)).sum

/-- Number of records whose deadline is strictly below `d`. -/
def earlierCount (s : Store) (d : Nat) : Nat :=
  s.countP (fun B => decide (B.tsk_D < d))

/-- Number of records in state `Armed` (`dp_timerStatus == 2`). -/
def armedCount (s : Store) : Nat :=
  s.countP (fun r => decide (r.dp_timerStatus = 2))

/-- The calls, other than the insertion, through which the rest of the scheduler changes the
globals. -/
inductive Event where
  | delete (PID : Int)
  | pri2
  | proPoint
  | released (PID : Int) (time_to_Fire_Value : Nat)
  | setStatus (PID : Int) (tmrStatus : Int)
  | update (find_task_by_vpid : Int → Option task_struct) (litmus_clock : Nat)
  | dp_update (find_task_by_vpid : Int → Option task_struct) (litmus_clock : Nat)
  | timeout

/-- Effect of a call on the globals. -/
def Event.exec (st : State) : Event → State
  | .delete PID => { st with dp_ListHead := (dp_find_first_and_delete st.dp_ListHead PID).2 }
  | .pri2 => { st with dp_ListHead := calculate_Pri2_RM st.dp_ListHead }
  | .proPoint => { st with dp_ListHead := calculate_ProPoint st.dp_ListHead }
  | .released PID time_to_Fire_Value =>
    { st with dp_ListHead := dp_set_time_Released st.dp_ListHead PID time_to_Fire_Value }
  | .setStatus PID tmrStatus =>
    { st with dp_ListHead := dp_set_tmrStatus st.dp_ListHead PID tmrStatus }
  | .update find_task_by_vpid litmus_clock =>
    update_enforcement_timer find_task_by_vpid litmus_clock st
  | .dp_update find_task_by_vpid litmus_clock =>
    dp_update_enforcement_timer find_task_by_vpid litmus_clock st
  | .timeout => on_enforcement_timeout st

/-- A call of the interface: an insertion, made under the layout and allocator answer of
that moment, or one of the other calls. -/
inductive Call where
  | add (L : Layout) (PID : Int) (tsk_C tsk_D : Nat) (pfp_priority dp_priority : Int)
      (dp_PrPoint : Nat) (tmrStatus : Int) (time_to_fired : Nat)
  | other (e : Event)

/-- Effect of a call on the globals; `none` when the insertion has no result. -/
def Call.exec (st : State) : Call → Option State
  | .add L PID tsk_C tsk_D pfp_priority dp_priority dp_PrPoint tmrStatus time_to_fired =>
    match add_dp_node L st.dp_ListHead PID tsk_C tsk_D pfp_priority dp_priority dp_PrPoint
        tmrStatus time_to_fired with
    | none => none
    | some s => some { st with dp_ListHead := s }
  | .other e => some (e.exec st)

/-- A 64-bit kernel whose allocator returns exactly the bytes asked for: a pointer takes 8
bytes; the record takes at least the 64 bytes of its four `int`, four `lt_t` and two
pointers. -/
def tightLayout : Layout :=
  { sizeof_dp_list_ptr := 8, sizeof_dp_list := 64, kmalloc := fun n => some n }

/-- The same sizes with an allocator whose smallest block has 128 bytes. -/
def roomyLayout : Layout :=
  { sizeof_dp_list_ptr := 8, sizeof_dp_list := 64, kmalloc := fun n => some (max n 128) }

/-- The three tasks of the scenario, added in the order A, B, C with identifiers 1, 2, 3. -/
def threeTasks : Store :=
  link_node (link_node (link_node [] 1 2 20 3 1 0 1 0) 2 3 10 2 1 0 1 0) 3 1 5 1 1 0 1 0

/-- Absolute trigger time of a record: release time plus promotion point, as an `lt_t`. -/
def trigger (r : dp_list) : Nat := lt_add r.dp_time_to_fired r.dp_PrPoint

/-- What the loop of the selector has established after the records `seen`. -/
def SelInv (seen : Store) (acc : Nat × Int) : Prop :=
  (acc.1 = 0 ∧ ∀ o ∈ seen, o.dp_timerStatus ≠ 1)
    ∨ (acc.1 ≠ 0 ∧ ∃ r ∈ seen, r.dp_timerStatus = 1 ∧ r.dp_pid = acc.2 ∧ trigger r = acc.1
        ∧ ∀ o ∈ seen, o.dp_timerStatus = 1 → acc.1 ≤ trigger o)

/-- Store invariant of the controller: the identifiers are pairwise distinct and at most one
record is `Armed`. -/
def Inv (st : State) : Prop :=
  (ids st.dp_ListHead).Nodup ∧ armedCount st.dp_ListHead ≤ 1

/-- Two tasks, added in the order B (id 2, C=1, D=20, base 2), A (id 1, C=5, D=5, base 1),
both `AwaitingArm` with release time 0, after the point pass: the promotion point of A is
`5 - 5 - 0 = 0`, that of B is `20 - 1 - 5 = 14`. -/
def zeroTriggerTasks : Store :=
  calculate_ProPoint (link_node (link_node [] 2 1 20 2 1 0 1 0) 1 5 5 1 1 0 1 0)

/-- `find_task_by_vpid` when every identifier names a live task that is non-preemptible. -/
def find_np (PID : Int) : Option task_struct := some { pid := PID, is_np := true }

/-- `find_task_by_vpid` when every identifier names a live, preemptible task. -/
def find_live (PID : Int) : Option task_struct := some { pid := PID, is_np := false }

/-- One released record (id 1, trigger time 10), timer not armed. -/
def awaitingState : State :=
  { dp_ListHead := link_node [] 1 1 11 1 1 10 1 0
    budget_timer := { timer := 0, armed := 0 }
    PID_No_To_Trigger := 0 }

/-- Two released records (id 1 with trigger time 14, id 3 with trigger time 4), timer not
armed. -/
def awaitingState2 : State :=
  { dp_ListHead := link_node (link_node [] 1 2 20 3 1 14 1 0) 3 1 5 1 1 4 1 0
    budget_timer := { timer := 0, armed := 0 }
    PID_No_To_Trigger := 0 }

/-- The state after the controller has armed the timer for record 3 of `awaitingState2`. -/
def armedState : State :=
  { dp_ListHead := link_node (link_node [] 1 2 20 3 1 14 1 0) 3 1 5 1 1 4 2 0
    budget_timer := { timer := 4, armed := 1 }
    PID_No_To_Trigger := 3 }

/-- What the loop of the selector has established about its result after the records
`seen`, whatever the trigger times: nothing selected and no `AwaitingArm` record seen, or the
identifier of an `AwaitingArm` record selected. -/
def SelFound (seen : Store) (acc : Nat × Int) : Prop :=
  (acc = (0, 0) ∧ ∀ o ∈ seen, o.dp_timerStatus ≠ 1)
    ∨ ∃ r ∈ seen, r.dp_timerStatus = 1 ∧ r.dp_pid = acc.2

/-- The list after the records `recs` have been added by `add_dp_node` one by one, in this
order, to the empty list; `none` when one of the insertions has no result. -/
def insert_all (L : Layout) (recs : List dp_list) : Option Store :=
  recs.foldl
    (fun acc r =>
      match acc with
      | none => none
      | some s =>
        add_dp_node L s r.dp_pid r.tsk_C r.tsk_D r.pfp_priority r.dp_priority r.dp_PrPoint
          r.dp_timerStatus r.dp_time_to_fired)
    (some [])

/-- Two records with the same identifier: the first in state 0, the second `AwaitingArm`. -/
def duplicateTasks : Store :=
  link_node (link_node [] 1 1 11 1 1 10 1 0) 1 1 11 1 1 10 0 0

/-- Two `AwaitingArm` records with the same trigger time 5, in insertion order. -/
def tiedRecords : List dp_list :=
  [⟨1, 1, 6, 1, 1, 5, 1, 0⟩, ⟨2, 1, 6, 1, 1, 5, 1, 0⟩]

/-- One resident record with identifier 1. -/
def oneTask : Store := link_node [] 1 2 20 3 1 14 1 0

/-- One task whose deadline 3 is below its execution time 5. -/
def lateTask : Store := link_node [] 1 5 3 1 1 0 1 0

/-- Task 1 (C = `2 ^ 63 - 1`, D = 0, base priority 3) below the tasks 2 (C = `2 ^ 63 - 1`,
base priority 1) and 3 (C = 1, base priority 2): the deficit `C + S - D` of task 1 is
`2 ^ 64 - 1`. Every field is below `2 ^ 63`. -/
def hugeDeficitTasks : Store :=
  link_node
    (link_node (link_node [] 1 9223372036854775807 0 3 1 0 1 0) 2 9223372036854775807 0 1 1 0 1 0)
    3 1 0 2 1 0 1 0

/-- Three tasks with the deadlines 10, 5 and 5. -/
def tiedDeadlines : Store :=
  link_node (link_node (link_node [] 1 1 10 1 1 0 1 0) 2 1 5 2 1 0 1 0) 3 1 5 3 1 0 1 0

/-- The timer of record 3 has fired; record 1 (trigger time 14) is `AwaitingArm`; the timer
is not armed. -/
def firedState : State :=
  { dp_ListHead := link_node (link_node [] 1 2 20 3 1 14 1 0) 3 1 5 1 1 4 3 0
    budget_timer := { timer := 4, armed := 0 }
    PID_No_To_Trigger := 3 }

/-- Record 1 (trigger time 14) is `Armed` and the timer is programmed for it; record 3
(trigger time 4) is `AwaitingArm`. -/
def staleArmedState : State :=
  { dp_ListHead := link_node (link_node [] 1 2 20 3 1 14 2 0) 3 1 5 1 1 4 1 0
    budget_timer := { timer := 14, armed := 1 }
    PID_No_To_Trigger := 1 }

/-! ## The two calculator passes as maps -/

theorem ids_take_not_mem (s : Store) (hnd : (ids s).Nodup) (k : Nat) (hk : k < s.length) :
    s[k].dp_pid ∉ ids (s.take k) := by
  have hsplit : s = s.take k ++ s[k] :: s.drop (k + 1) := by
    rw [← List.drop_eq_getElem_cons hk, List.take_append_drop]
  have h2 : (ids (s.take k) ++ s[k].dp_pid :: ids (s.drop (k + 1))).Nodup := by
    have : ids s = ids (s.take k) ++ s[k].dp_pid :: ids (s.drop (k + 1)) := by
      unfold ids
      conv_lhs => rw [hsplit]
      rw [List.map_append, List.map_cons]
    rw [← this]; exact hnd
  rw [List.nodup_middle, List.nodup_cons] at h2
  intro hmem
  exact h2.1 (List.mem_append_left _ hmem)

theorem pass_fold_eq {α : Type} (upd : dp_list → α → dp_list) (val : Store → dp_list → α)
    (hpid : ∀ r v, (upd r v).dp_pid = r.dp_pid)
    (hval : ∀ (s : Store) (p : dp_list → Prop) [DecidablePred p] (g : dp_list → α) (o : dp_list),
      val (s.map (fun r => if p r then upd r (g r) else r)) o = val s o)
    (s : Store) (hnd : (ids s).Nodup) (k : Nat) (hk : k ≤ s.length) :
    (List.range k).foldl
      (fun st i =>
        match st[i]? with
        | none => st
        | some o => st.map (fun r => if r.dp_pid = o.dp_pid then upd r (val st o) else r))
      s
    = s.map (fun r => if r.dp_pid ∈ ids (s.take k) then upd r (val s r) else r) := by
  induction k with
  | zero => simp [ids]
  | succ k ih =>
    have hk2 : k < s.length := hk
    rw [List.range_succ, List.foldl_append, ih (Nat.le_of_lt hk2)]
    have hnot := ids_take_not_mem s hnd k hk2
    simp only [List.foldl_cons, List.foldl_nil, List.getElem?_map,
      List.getElem?_eq_getElem hk2, Option.map_some']
    rw [if_neg hnot]
    simp only [hval, List.map_map]
    apply List.map_congr_left
    intro r hr
    have htake : ids (s.take (k + 1)) = ids (s.take k) ++ [s[k].dp_pid] := by
      unfold ids
      rw [List.take_succ, List.getElem?_eq_getElem hk2, List.map_append]
      rfl
    simp only [Function.comp, htake]
    by_cases h1 : r.dp_pid ∈ ids (s.take k)
    · have hne : ¬ (upd r (val s r)).dp_pid = s[k].dp_pid := by
        rw [hpid]; exact fun h => hnot (h ▸ h1)
      have h3 : r.dp_pid ∈ ids (s.take k) ++ [s[k].dp_pid] := List.mem_append_left _ h1
      rw [if_pos h1, if_pos h3, if_neg hne]
    · by_cases h2 : r.dp_pid = s[k].dp_pid
      · have hreq : r = s[k] :=
          List.inj_on_of_nodup_map hnd hr (List.getElem_mem hk2) h2
        have h3 : r.dp_pid ∈ ids (s.take k) ++ [s[k].dp_pid] := by
          rw [h2]; exact List.mem_append_right _ (List.mem_singleton_self _)
        rw [if_neg h1, if_pos h3, if_pos h2, hreq]
      · have h3 : r.dp_pid ∉ ids (s.take k) ++ [s[k].dp_pid] := by
          simp only [List.mem_append, List.mem_singleton]
          exact fun h => h.elim h1 h2
        rw [if_neg h1, if_neg h3, if_neg h2]

theorem pass_eq_map {α : Type} (upd : dp_list → α → dp_list) (val : Store → dp_list → α)
    (hpid : ∀ r v, (upd r v).dp_pid = r.dp_pid)
    (hval : ∀ (s : Store) (p : dp_list → Prop) [DecidablePred p] (g : dp_list → α) (o : dp_list),
      val (s.map (fun r => if p r then upd r (g r) else r)) o = val s o)
    (s : Store) (hnd : (ids s).Nodup) :
    (List.range s.length).foldl
      (fun st i =>
        match st[i]? with
        | none => st
        | some o => st.map (fun r => if r.dp_pid = o.dp_pid then upd r (val st o) else r))
      s
    = s.map (fun r => upd r (val s r)) := by
  rw [pass_fold_eq upd val hpid hval s hnd s.length (Nat.le_refl _), List.take_length]
  apply List.map_congr_left
  intro r hr
  have : r.dp_pid ∈ ids s := List.mem_map_of_mem _ hr
  simp [this]

theorem calculate_Pri2_RM_inner_map (s : Store) (p : dp_list → Prop) [DecidablePred p]
    (g : dp_list → Int) (d : Nat) :
    calculate_Pri2_RM_inner (s.map (fun r => if p r then { r with dp_priority := g r } else r)) d
      = calculate_Pri2_RM_inner s d := by
  unfold calculate_Pri2_RM_inner
  rw [List.foldl_map]
  congr 1
  funext pri2 r
  by_cases h : p r <;> simp [h]

theorem calculate_ProPoint_inner_map (s : Store) (p : dp_list → Prop) [DecidablePred p] (g : dp_list → Nat)
    (o : dp_list) :
    calculate_ProPoint_inner (s.map (fun r => if p r then { r with dp_PrPoint := g r } else r)) o
      = calculate_ProPoint_inner s o := by
  unfold calculate_ProPoint_inner
  rw [List.foldl_map]
  congr 1
  funext hw r
  by_cases h : p r <;> simp [h]

theorem calculate_Pri2_RM_eq_map (s : Store) (hnd : (ids s).Nodup) :
    calculate_Pri2_RM s
      = s.map (fun r => { r with dp_priority := calculate_Pri2_RM_inner s r.tsk_D }) :=
  pass_eq_map (fun r v => { r with dp_priority := v })
    (fun st o => calculate_Pri2_RM_inner st o.tsk_D) (fun _ _ => rfl)
    (fun s p _ g o => calculate_Pri2_RM_inner_map s p g o.tsk_D) s hnd

theorem calculate_ProPoint_eq_map (s : Store) (hnd : (ids s).Nodup) :
    calculate_ProPoint s
      = s.map (fun r =>
          { r with dp_PrPoint := lt_sub (lt_sub r.tsk_D r.tsk_C) (calculate_ProPoint_inner s r) }) :=
  pass_eq_map (fun r v => { r with dp_PrPoint := v })
    (fun st o => lt_sub (lt_sub o.tsk_D o.tsk_C) (calculate_ProPoint_inner st o)) (fun _ _ => rfl)
    (fun s p _ g o => by simp only [calculate_ProPoint_inner_map]) s hnd

theorem pri2_fold_eq (d : Nat) (s : Store) :
    ∀ a : Int, 0 ≤ a → a + (earlierCount s d : Int) < 2 ^ 31 →
      s.foldl (fun pri2 objPtr2 => if d > objPtr2.tsk_D then int_wrap (pri2 + 1) else pri2) a
        = a + (earlierCount s d : Int) := by
  induction s with
  | nil => intro a _ _; simp [earlierCount]
  | cons B rest ih =>
    intro a h0 hlt
    simp only [List.foldl_cons]
    by_cases hB : d > B.tsk_D
    · have hc : earlierCount (B :: rest) d = earlierCount rest d + 1 := by
        simp [earlierCount, List.countP_cons, decide_eq_true hB]
      rw [hc] at hlt ⊢
      push_cast at hlt ⊢
      have hw : int_wrap (a + 1) = a + 1 := by unfold int_wrap; omega
      rw [if_pos hB, hw, ih (a + 1) (by omega) (by omega)]
      ring
    · have hc : earlierCount (B :: rest) d = earlierCount rest d := by
        have hB2 : ¬ B.tsk_D < d := hB
        simp [earlierCount, List.countP_cons, hB2]
      rw [hc] at hlt ⊢
      rw [if_neg hB, ih a h0 hlt]

theorem earlierCount_lt_length (s : Store) (A : dp_list) (hA : A ∈ s) :
    earlierCount s A.tsk_D < s.length := by
  unfold earlierCount
  rw [List.countP_eq_length_filter]
  apply List.length_filter_lt_length_iff_exists.mpr
  exact ⟨A, hA, by simp⟩

theorem calculate_Pri2_RM_inner_eq (s : Store) (A : dp_list) (hA : A ∈ s)
    (hlen : s.length < 2 ^ 31) :
    calculate_Pri2_RM_inner s A.tsk_D = 1 + (earlierCount s A.tsk_D : Int) := by
  unfold calculate_Pri2_RM_inner
  have h0 := earlierCount_lt_length s A hA
  have h1 : (1 : Int) + (earlierCount s A.tsk_D : Int) < 2 ^ 31 := by omega
  exact pri2_fold_eq A.tsk_D s 1 (by decide) h1

theorem hwcet_fold_eq (o : dp_list) (s : Store) :
    ∀ a : Nat,
      s.foldl (fun HWCET_Val objPtr2 =>
          if o.pfp_priority > objPtr2.pfp_priority then lt_add HWCET_Val objPtr2.tsk_C
          else HWCET_Val) (a % LT_MOD)
        = (a + higherSum s o) % LT_MOD := by
  induction s with
  | nil => intro a; simp [higherSum]
  | cons B rest ih =>
    intro a
    simp only [List.foldl_cons]
    by_cases hB : o.pfp_priority > B.pfp_priority
    · have hd : decide (B.pfp_priority < o.pfp_priority) = true := decide_eq_true hB
      have hs : higherSum (B :: rest) o = B.tsk_C + higherSum rest o := by
        simp [higherSum, List.filter_cons, hd]
      have hadd : lt_add (a % LT_MOD) B.tsk_C = (a + B.tsk_C) % LT_MOD := by
        unfold lt_add; exact Nat.mod_add_mod a LT_MOD B.tsk_C
      rw [if_pos hB, hadd, ih (a + B.tsk_C), hs, Nat.add_assoc]
    · have hd : decide (B.pfp_priority < o.pfp_priority) = false := decide_eq_false hB
      have hs : higherSum (B :: rest) o = higherSum rest o := by
        simp [higherSum, List.filter_cons, hd]
      rw [if_neg hB, ih a, hs]

theorem calculate_ProPoint_inner_eq (s : Store) (o : dp_list) :
    calculate_ProPoint_inner s o = higherSum s o % LT_MOD := by
  have h := hwcet_fold_eq o s 0
  simp only [Nat.zero_mod, Nat.zero_add] at h
  exact h

/-! ## The point pass -/

/-- C1: when the identifiers are pairwise distinct and `D(A) >= C(A) + S`, with `S` the sum
of `C(B)` over the records of strictly higher base priority, `calculate_ProPoint` leaves in
the record of `A` the promotion point `D(A) - C(A) - S` (and changes nothing else in it). -/
theorem calculate_ProPoint_point (s : Store) (i : Nat) (A : dp_list)
    (hnd : (ids s).Nodup) (hA : s[i]? = some A) (hD : A.tsk_D < 2 ^ 64)
    (hS : A.tsk_C + higherSum s A ≤ A.tsk_D) :
    (calculate_ProPoint s)[i]?
      = some { A with dp_PrPoint := A.tsk_D - A.tsk_C - higherSum s A } := by
  rw [calculate_ProPoint_eq_map s hnd, List.getElem?_map, hA, Option.map_some',
    calculate_ProPoint_inner_eq]
  have : lt_sub (lt_sub A.tsk_D A.tsk_C) (higherSum s A % LT_MOD)
      = A.tsk_D - A.tsk_C - higherSum s A := by
    unfold lt_sub LT_MOD; omega
  rw [this]

/-- C2: when the identifiers are pairwise distinct, `calculate_Pri2_RM` leaves in the record
of `A` the promoted priority `1 +` the number of records `B` with `D(B) < D(A)` (and changes
nothing else in it); the list holds fewer than `2 ^ 31` records, the range of the `int`
counter. -/
theorem calculate_Pri2_RM_rank (s : Store) (i : Nat) (A : dp_list)
    (hnd : (ids s).Nodup) (hlen : s.length < 2 ^ 31) (hA : s[i]? = some A) :
    (calculate_Pri2_RM s)[i]?
      = some { A with dp_priority := 1 + (earlierCount s A.tsk_D : Int) } := by
  rw [calculate_Pri2_RM_eq_map s hnd, List.getElem?_map, hA, Option.map_some',
    calculate_Pri2_RM_inner_eq s A (List.getElem?_mem hA) hlen]

theorem earlierCount_mono (s : Store) (d e : Nat) (h : d ≤ e) :
    earlierCount s d ≤ earlierCount s e := by
  unfold earlierCount
  apply List.countP_mono_left
  intro B _ hB
  simp only [decide_eq_true_eq] at hB ⊢
  omega

/-- C6: after `calculate_Pri2_RM` on a list with pairwise distinct identifiers, a record
with the smaller deadline never has the larger promoted priority. -/
theorem calculate_Pri2_RM_monotone (s : Store) (A B : dp_list)
    (hnd : (ids s).Nodup) (hlen : s.length < 2 ^ 31)
    (hA : A ∈ calculate_Pri2_RM s) (hB : B ∈ calculate_Pri2_RM s) (hAB : A.tsk_D < B.tsk_D) :
    A.dp_priority ≤ B.dp_priority := by
  rw [calculate_Pri2_RM_eq_map s hnd, List.mem_map] at hA hB
  obtain ⟨a, ha, rfl⟩ := hA
  obtain ⟨b, hb, rfl⟩ := hB
  simp only [calculate_Pri2_RM_inner_eq s a ha hlen, calculate_Pri2_RM_inner_eq s b hb hlen]
    at hAB ⊢
  have := earlierCount_mono s a.tsk_D b.tsk_D (Nat.le_of_lt hAB)
  omega


theorem calculate_ProPoint_point_witness :
    (calculate_ProPoint threeTasks)[2]?
      = some { dp_pid := 1, tsk_C := 2, tsk_D := 20, pfp_priority := 3, dp_priority := 1,
               dp_PrPoint := 14, dp_timerStatus := 1, dp_time_to_fired := 0 } :=
  calculate_ProPoint_point threeTasks 2 _ (by decide) (by rfl) (by decide) (by decide)

theorem calculate_Pri2_RM_rank_witness :
    (calculate_Pri2_RM threeTasks)[2]?
      = some { dp_pid := 1, tsk_C := 2, tsk_D := 20, pfp_priority := 3, dp_priority := 3,
               dp_PrPoint := 0, dp_timerStatus := 1, dp_time_to_fired := 0 } :=
  calculate_Pri2_RM_rank threeTasks 2 _ (by decide) (by decide) (by rfl)

theorem calculate_Pri2_RM_monotone_witness :
    (⟨3, 1, 5, 1, 1, 0, 1, 0⟩ : dp_list) ∈ calculate_Pri2_RM threeTasks
      ∧ (⟨1, 2, 20, 3, 3, 0, 1, 0⟩ : dp_list) ∈ calculate_Pri2_RM threeTasks
      ∧ (1 : Int) ≤ 3 :=
  ⟨by decide, by decide,
    calculate_Pri2_RM_monotone threeTasks ⟨3, 1, 5, 1, 1, 0, 1, 0⟩ ⟨1, 2, 20, 3, 3, 0, 1, 0⟩
      (by decide) (by decide) (by decide) (by decide) (by decide)⟩

/-! ## The selector -/

theorem find?_pid_of_mem (s : Store) (hnd : (ids s).Nodup) (o : dp_list) (ho : o ∈ s) :
    s.find? (fun objPtr => decide (objPtr.dp_pid = o.dp_pid)) = some o := by
  induction s with
  | nil => simp at ho
  | cons x rest ih =>
    have hnd2 : x.dp_pid ∉ ids rest ∧ (ids rest).Nodup := by
      simpa [ids] using hnd
    by_cases hx : x.dp_pid = o.dp_pid
    · have hxo : o = x := by
        rcases List.mem_cons.mp ho with h1 | h1
        · exact h1
        · exfalso
          apply hnd2.1
          rw [hx]
          exact List.mem_map_of_mem _ h1
      subst hxo
      simp [List.find?_cons]
    · have ho2 : o ∈ rest := by
        rcases List.mem_cons.mp ho with h1 | h1
        · exact absurd (h1 ▸ rfl) hx
        · exact h1
      rw [List.find?_cons, decide_eq_false hx]
      exact ih hnd2.2 ho2

theorem dp_get_tmrStatus_of_mem (s : Store) (hnd : (ids s).Nodup) (o : dp_list) (ho : o ∈ s) :
    dp_get_tmrStatus s o.dp_pid = o.dp_timerStatus := by
  unfold dp_get_tmrStatus
  rw [find?_pid_of_mem s hnd o ho]

theorem dp_get_time_to_Fire_of_mem (s : Store) (hnd : (ids s).Nodup) (o : dp_list)
    (ho : o ∈ s) : dp_get_time_to_Fire s o.dp_pid = trigger o := by
  unfold dp_get_time_to_Fire
  rw [find?_pid_of_mem s hnd o ho]
  rfl

theorem earliest_step_inv (s : Store) (hnd : (ids s).Nodup)
    (hnz : ∀ r ∈ s, r.dp_timerStatus = 1 → trigger r ≠ 0)
    (seen : Store) (acc : Nat × Int) (o : dp_list) (ho : o ∈ s) (h : SelInv seen acc) :
    SelInv (seen ++ [o]) (earliest_step s acc o) := by
  unfold earliest_step
  rw [dp_get_tmrStatus_of_mem s hnd o ho, dp_get_time_to_Fire_of_mem s hnd o ho]
  by_cases h1 : acc.1 = 0 ∧ o.dp_timerStatus = 1
  · rw [if_pos h1]
    right
    refine ⟨hnz o ho h1.2, o, by simp, h1.2, rfl, rfl, ?_⟩
    intro o2 ho2 hst
    rcases List.mem_append.mp ho2 with h3 | h3
    · rcases h with ⟨_, hnone⟩ | ⟨hne, _⟩
      · exact absurd hst (hnone o2 h3)
      · exact absurd h1.1 hne
    · rw [List.mem_singleton.mp h3]
  · rw [if_neg h1]
    by_cases h2 : acc.1 > trigger o ∧ o.dp_timerStatus = 1
    · rw [if_pos h2]
      right
      refine ⟨hnz o ho h2.2, o, by simp, h2.2, rfl, rfl, ?_⟩
      intro o2 ho2 hst
      rcases List.mem_append.mp ho2 with h3 | h3
      · rcases h with ⟨h0, _⟩ | ⟨_, _, _, _, _, _, hmin⟩
        · have := h2.1
          omega
        · exact Nat.le_trans (Nat.le_of_lt h2.1) (hmin o2 h3 hst)
      · rw [List.mem_singleton.mp h3]
    · rw [if_neg h2]
      rcases h with ⟨h0, hnone⟩ | ⟨hne, r, hr, hst, hpid, htr, hmin⟩
      · left
        refine ⟨h0, ?_⟩
        intro o2 ho2
        rcases List.mem_append.mp ho2 with h3 | h3
        · exact hnone o2 h3
        · rw [List.mem_singleton.mp h3]
          exact fun hst => h1 ⟨h0, hst⟩
      · right
        refine ⟨hne, r, List.mem_append_left _ hr, hst, hpid, htr, ?_⟩
        intro o2 ho2 hst2
        rcases List.mem_append.mp ho2 with h3 | h3
        · exact hmin o2 h3 hst2
        · rw [List.mem_singleton.mp h3] at hst2 ⊢
          by_contra hlt
          exact h2 ⟨by omega, hst2⟩

theorem earliest_fold_inv (s : Store) (hnd : (ids s).Nodup)
    (hnz : ∀ r ∈ s, r.dp_timerStatus = 1 → trigger r ≠ 0) (l : Store) :
    ∀ (seen : Store) (acc : Nat × Int), (∀ o ∈ l, o ∈ s) → SelInv seen acc →
      SelInv (seen ++ l) (l.foldl (earliest_step s) acc) := by
  induction l with
  | nil => intro seen acc _ h; simpa using h
  | cons o rest ih =>
    intro seen acc hl h
    have h1 := earliest_step_inv s hnd hnz seen acc o (hl o (List.mem_cons_self _ _)) h
    have h2 := ih (seen ++ [o]) (earliest_step s acc o)
      (fun x hx => hl x (List.mem_cons_of_mem _ hx)) h1
    simpa using h2

/-- Selector minimality away from trigger time 0: when the identifiers are pairwise distinct,
some record is `AwaitingArm` and no `AwaitingArm` record has trigger time 0,
`dp_get_PID_earliest_trigger_time` returns the identifier of an `AwaitingArm` record whose
trigger time is at most that of every `AwaitingArm` record. -/
theorem selector_minimal_of_nonzero (s : Store) (hnd : (ids s).Nodup)
    (hnz : ∀ r ∈ s, r.dp_timerStatus = 1 → dp_get_time_to_Fire s r.dp_pid ≠ 0)
    (hex : ∃ r ∈ s, r.dp_timerStatus = 1) :
    ∃ r ∈ s, r.dp_pid = dp_get_PID_earliest_trigger_time s ∧ r.dp_timerStatus = 1
      ∧ ∀ o ∈ s, o.dp_timerStatus = 1 →
          dp_get_time_to_Fire s r.dp_pid ≤ dp_get_time_to_Fire s o.dp_pid := by
  have hnz2 : ∀ r ∈ s, r.dp_timerStatus = 1 → trigger r ≠ 0 := by
    intro r hr hst
    rw [← dp_get_time_to_Fire_of_mem s hnd r hr]
    exact hnz r hr hst
  have h := earliest_fold_inv s hnd hnz2 s [] (0, 0) (fun _ ho => ho)
    (Or.inl ⟨rfl, fun _ ho => absurd ho (List.not_mem_nil _)⟩)
  rw [List.nil_append] at h
  rcases h with ⟨_, hnone⟩ | ⟨_, r, hr, hst, hpid, htr, hmin⟩
  · obtain ⟨r, hr, hst⟩ := hex
    exact absurd hst (hnone r hr)
  · refine ⟨r, hr, hpid, hst, ?_⟩
    intro o ho hso
    rw [dp_get_time_to_Fire_of_mem s hnd r hr, dp_get_time_to_Fire_of_mem s hnd o ho, htr]
    exact hmin o ho hso

theorem selector_minimal_of_nonzero_witness :
    ∃ r ∈ calculate_ProPoint threeTasks,
      r.dp_pid = dp_get_PID_earliest_trigger_time (calculate_ProPoint threeTasks)
      ∧ r.dp_timerStatus = 1
      ∧ ∀ o ∈ calculate_ProPoint threeTasks, o.dp_timerStatus = 1 →
          dp_get_time_to_Fire (calculate_ProPoint threeTasks) r.dp_pid
            ≤ dp_get_time_to_Fire (calculate_ProPoint threeTasks) o.dp_pid :=
  selector_minimal_of_nonzero (calculate_ProPoint threeTasks) (by decide) (by decide)
    (by decide)

/-- C3: on `zeroTriggerTasks` (distinct non-zero identifiers, both records `AwaitingArm`)
the record 1 has trigger time 0 and the record 2 has trigger time 14, and
`dp_get_PID_earliest_trigger_time` returns 2: after record 1 is taken, `earliest_Prom_Point`
is still 0, so the next `AwaitingArm` record replaces it. -/
theorem selector_zero_trigger_not_minimal :
    (ids zeroTriggerTasks).Nodup
      ∧ (∀ r ∈ zeroTriggerTasks, r.dp_pid ≠ 0 ∧ r.dp_timerStatus = 1)
      ∧ dp_get_time_to_Fire zeroTriggerTasks 1 = 0
      ∧ dp_get_time_to_Fire zeroTriggerTasks 2 = 14
      ∧ dp_get_PID_earliest_trigger_time zeroTriggerTasks = 2 := by
  decide


/-! ## The insertion and the scenario -/

theorem add_dp_node_of_fits (L : Layout) (block : Nat)
    (hk : L.kmalloc L.sizeof_dp_list_ptr = some block) (hfit : L.sizeof_dp_list ≤ block)
    (s : Store) (PID : Int) (tsk_C tsk_D : Nat) (pfp_priority dp_priority : Int)
    (dp_PrPoint : Nat) (tmrStatus : Int) (time_to_fired : Nat) :
    add_dp_node L s PID tsk_C tsk_D pfp_priority dp_priority dp_PrPoint tmrStatus time_to_fired
      = some (link_node s PID tsk_C tsk_D pfp_priority dp_priority dp_PrPoint tmrStatus
          time_to_fired) := by
  unfold add_dp_node
  rw [hk]
  simp only [if_pos hfit]

theorem add_dp_node_of_small (L : Layout) (block : Nat)
    (hk : L.kmalloc L.sizeof_dp_list_ptr = some block) (hsmall : block < L.sizeof_dp_list)
    (s : Store) (PID : Int) (tsk_C tsk_D : Nat) (pfp_priority dp_priority : Int)
    (dp_PrPoint : Nat) (tmrStatus : Int) (time_to_fired : Nat) :
    add_dp_node L s PID tsk_C tsk_D pfp_priority dp_priority dp_PrPoint tmrStatus time_to_fired
      = none := by
  unfold add_dp_node
  rw [hk]
  simp only [if_neg (Nat.not_le.mpr hsmall)]

theorem insert_all_fold (L : Layout) (block : Nat)
    (hk : L.kmalloc L.sizeof_dp_list_ptr = some block) (hfit : L.sizeof_dp_list ≤ block)
    (recs : List dp_list) :
    ∀ s : Store,
      recs.foldl
        (fun acc r =>
          match acc with
          | none => none
          | some s =>
            add_dp_node L s r.dp_pid r.tsk_C r.tsk_D r.pfp_priority r.dp_priority r.dp_PrPoint
              r.dp_timerStatus r.dp_time_to_fired)
        (some s) = some (recs.reverse ++ s) := by
  induction recs with
  | nil => intro s; rfl
  | cons r rest ih =>
    intro s
    have h1 := add_dp_node_of_fits L block hk hfit s r.dp_pid r.tsk_C r.tsk_D r.pfp_priority
      r.dp_priority r.dp_PrPoint r.dp_timerStatus r.dp_time_to_fired
    rw [List.foldl_cons]
    dsimp only
    rw [h1, ih, List.reverse_cons, List.append_assoc]
    rfl

theorem insert_all_of_fits (L : Layout) (block : Nat)
    (hk : L.kmalloc L.sizeof_dp_list_ptr = some block) (hfit : L.sizeof_dp_list ≤ block)
    (recs : List dp_list) : insert_all L recs = some recs.reverse := by
  unfold insert_all
  rw [insert_all_fold L block hk hfit, List.append_nil]

/-- C5: the scenario on `tightLayout`. The block returned for
`kmalloc(sizeof(struct dp_list *))` has 8 bytes and the record needs 64, so the first
`add_dp_node`, and with it the sequence of the three insertions, has no result: the writes
run past the block. -/
theorem scenario_insertion_overflows :
    tightLayout.kmalloc tightLayout.sizeof_dp_list_ptr = some 8
      ∧ 8 < tightLayout.sizeof_dp_list
      ∧ add_dp_node tightLayout [] 1 2 20 3 1 0 1 0 = none
      ∧ insert_all tightLayout
          [⟨1, 2, 20, 3, 1, 0, 1, 0⟩, ⟨2, 3, 10, 2, 1, 0, 1, 0⟩, ⟨3, 1, 5, 1, 1, 0, 1, 0⟩]
          = none := by
  decide

/-- The scenario once the list holds the three records A(C=2,D=20,base=3),
B(C=3,D=10,base=2), C(C=1,D=5,base=1), linked in this order with pairwise distinct
identifiers `a`, `b`, `c`, `AwaitingArm` and release time 0 (whatever the promoted priority
and promotion point they carry): the two passes give the promoted priorities A=3, B=2, C=1
and the promotion points A=14, B=6, C=4, and the selector then returns `c`. -/
theorem scenario_three_tasks (a b c : Int) (hab : a ≠ b) (hac : a ≠ c) (hbc : b ≠ c)
    (pa pb pc : Int) (xa xb xc : Nat) :
    calculate_ProPoint (calculate_Pri2_RM
        (link_node (link_node (link_node [] a 2 20 3 pa xa 1 0) b 3 10 2 pb xb 1 0)
          c 1 5 1 pc xc 1 0))
      = link_node (link_node (link_node [] a 2 20 3 3 14 1 0) b 3 10 2 2 6 1 0)
          c 1 5 1 1 4 1 0
    ∧ dp_get_PID_earliest_trigger_time (calculate_ProPoint (calculate_Pri2_RM
        (link_node (link_node (link_node [] a 2 20 3 pa xa 1 0) b 3 10 2 pb xb 1 0)
          c 1 5 1 pc xc 1 0))) = c := by
  have hba := Ne.symm hab
  have hca := Ne.symm hac
  have hcb := Ne.symm hbc
  have hnd1 : (ids (link_node (link_node (link_node [] a 2 20 3 pa xa 1 0)
      b 3 10 2 pb xb 1 0) c 1 5 1 pc xc 1 0)).Nodup := by
    simp [ids, link_node, hab, hac, hbc, hba, hca, hcb]
  have h1 : calculate_Pri2_RM
        (link_node (link_node (link_node [] a 2 20 3 pa xa 1 0) b 3 10 2 pb xb 1 0)
          c 1 5 1 pc xc 1 0)
      = link_node (link_node (link_node [] a 2 20 3 3 xa 1 0) b 3 10 2 2 xb 1 0)
          c 1 5 1 1 xc 1 0 := by
    rw [calculate_Pri2_RM_eq_map _ hnd1]
    simp [link_node, calculate_Pri2_RM_inner, int_wrap]
  have hnd2 : (ids (link_node (link_node (link_node [] a 2 20 3 3 xa 1 0)
      b 3 10 2 2 xb 1 0) c 1 5 1 1 xc 1 0)).Nodup := by
    simp [ids, link_node, hab, hac, hbc, hba, hca, hcb]
  have h2 : calculate_ProPoint
        (link_node (link_node (link_node [] a 2 20 3 3 xa 1 0) b 3 10 2 2 xb 1 0)
          c 1 5 1 1 xc 1 0)
      = link_node (link_node (link_node [] a 2 20 3 3 14 1 0) b 3 10 2 2 6 1 0)
          c 1 5 1 1 4 1 0 := by
    rw [calculate_ProPoint_eq_map _ hnd2]
    have e1 : lt_sub (lt_sub 5 1) 0 = 4 := by decide
    have e2 : lt_sub (lt_sub 10 3) (lt_add 0 1) = 6 := by decide
    have e3 : lt_sub (lt_sub 20 2) (lt_add (lt_add 0 1) 3) = 14 := by decide
    simp [link_node, calculate_ProPoint_inner, e1, e2, e3]
  rw [h1, h2]
  refine ⟨rfl, ?_⟩
  have e1 : lt_add 0 4 = 4 := by decide
  have e2 : lt_add 0 6 = 6 := by decide
  have e3 : lt_add 0 14 = 14 := by decide
  simp [link_node, dp_get_PID_earliest_trigger_time, earliest_step, dp_get_tmrStatus,
    dp_get_time_to_Fire, e1, e2, e3, hab, hac, hbc, hba, hca, hcb]

theorem scenario_three_tasks_witness :
    dp_get_PID_earliest_trigger_time (calculate_ProPoint (calculate_Pri2_RM threeTasks)) = 3 :=
  (scenario_three_tasks 1 2 3 (by decide) (by decide) (by decide) 1 1 1 0 0 0).2

/-! ## The controller -/

theorem dp_update_enforcement_timer_eq :
    dp_update_enforcement_timer = update_enforcement_timer := rfl

theorem dp_Find_PID_fold (PID : Int) (s : Store) :
    ∀ init : Int,
      s.foldl (fun status objPtr => if objPtr.dp_pid = PID then 1 else status) init
        = if PID ∈ ids s then 1 else init := by
  induction s with
  | nil => intro init; simp [ids]
  | cons r rest ih =>
    intro init
    simp only [List.foldl_cons, ih, ids, List.map_cons, List.mem_cons]
    by_cases h1 : PID ∈ List.map (fun r => r.dp_pid) rest
    · simp [h1]
    · by_cases h2 : r.dp_pid = PID
      · simp [h1, h2]
      · have h3 : ¬ PID = r.dp_pid := fun h => h2 h.symm
        simp [h1, h2, h3]

theorem ids_map (s : Store) (f : dp_list → dp_list) (h : ∀ r, (f r).dp_pid = r.dp_pid) :
    ids (s.map f) = ids s := by
  unfold ids
  rw [List.map_map]
  apply List.map_congr_left
  intro r _
  exact h r

theorem calculate_ProPoint_ids (s : Store) (hnd : (ids s).Nodup) :
    ids (calculate_ProPoint s) = ids s := by
  rw [calculate_ProPoint_eq_map s hnd]
  exact ids_map _ _ (fun _ => rfl)

theorem ids_getElem? (s : Store) (i : Nat) (r : dp_list) (h : s[i]? = some r) :
    (ids s)[i]? = some r.dp_pid := by
  unfold ids
  rw [List.getElem?_map, h, Option.map_some']

theorem index_eq_of_pid_eq (s : Store) (hnd : (ids s).Nodup) (i j : Nat) (r o : dp_list)
    (hr : s[i]? = some r) (ho : s[j]? = some o) (h : o.dp_pid = r.dp_pid) : i = j := by
  have hi : i < (ids s).length := by
    have := (List.getElem?_eq_some.mp hr).1
    simpa [ids] using this
  apply List.getElem?_inj hi hnd
  rw [ids_getElem? s i r hr, ids_getElem? s j o ho, h]

theorem map_pid_eq_set (s : Store) (hnd : (ids s).Nodup) (i : Nat) (r : dp_list)
    (hr : s[i]? = some r) (g : dp_list → dp_list) :
    s.map (fun o => if o.dp_pid = r.dp_pid then g o else o) = s.set i (g r) := by
  apply List.ext_getElem?
  intro j
  rw [List.getElem?_map, List.getElem?_set]
  by_cases hij : i = j
  · subst hij
    rw [if_pos rfl, if_pos (List.getElem?_eq_some.mp hr).1, hr, Option.map_some', if_pos rfl]
  · rw [if_neg hij]
    cases ho : s[j]? with
    | none => rfl
    | some o =>
      rw [Option.map_some', if_neg]
      intro h
      exact hij (index_eq_of_pid_eq s hnd i j r o hr ho h)

theorem dp_Size_map (s : Store) (f : dp_list → dp_list) : dp_Size (s.map f) = dp_Size s := by
  unfold dp_Size
  rw [List.foldl_map]

theorem dp_Size_fold (s : Store) :
    ∀ a : Int, 0 ≤ a → a + (s.length : Int) < 2 ^ 31 →
      s.foldl (fun sizeOfData _ => int_wrap (sizeOfData + 1)) a = a + (s.length : Int) := by
  induction s with
  | nil => intro a _ _; simp
  | cons r rest ih =>
    intro a h0 hlt
    simp only [List.length_cons, Nat.cast_add, Nat.cast_one] at hlt ⊢
    have hw : int_wrap (a + 1) = a + 1 := by unfold int_wrap; omega
    rw [List.foldl_cons, hw, ih (a + 1) (by omega) (by omega)]
    ring

theorem dp_Size_eq_length (s : Store) (h : s.length < 2 ^ 31) : dp_Size s = (s.length : Int) := by
  unfold dp_Size
  have h1 : (0 : Int) + (s.length : Int) < 2 ^ 31 := by omega
  rw [dp_Size_fold s 0 (by decide) h1, Int.zero_add]

theorem dp_set_tmrStatus_twice (s : Store) (p v : Int) :
    dp_set_tmrStatus (dp_set_tmrStatus s p v) p v = dp_set_tmrStatus s p v := by
  unfold dp_set_tmrStatus
  rw [List.map_map]
  apply List.map_congr_left
  intro r _
  simp only [Function.comp]
  by_cases h : r.dp_pid = p
  · rw [if_pos h, if_pos h]
  · rw [if_neg h, if_neg h]


theorem delete_fst_of_mem (s : Store) (PID : Int) (h : PID ∈ ids s) :
    (dp_find_first_and_delete s PID).1 = 1 := by
  induction s with
  | nil => simp [ids] at h
  | cons o rest ih =>
    unfold dp_find_first_and_delete
    by_cases ho : o.dp_pid = PID
    · rw [if_pos ho]
    · rw [if_neg ho]
      apply ih
      simp only [ids, List.map_cons, List.mem_cons] at h
      rcases h with h | h
      · exact absurd h.symm ho
      · exact h

theorem delete_length_of_mem (s : Store) (PID : Int) (h : PID ∈ ids s) :
    (dp_find_first_and_delete s PID).2.length + 1 = s.length := by
  induction s with
  | nil => simp [ids] at h
  | cons o rest ih =>
    unfold dp_find_first_and_delete
    by_cases ho : o.dp_pid = PID
    · rw [if_pos ho]; rfl
    · rw [if_neg ho]
      simp only [ids, List.map_cons, List.mem_cons] at h
      rcases h with h | h
      · exact absurd h.symm ho
      · simp only [List.length_cons]
        rw [ih h]

theorem delete_armedCount (s : Store) (PID : Int) (hnd : (ids s).Nodup)
    (h : ∃ r ∈ s, r.dp_pid = PID ∧ r.dp_timerStatus = 2) :
    armedCount (dp_find_first_and_delete s PID).2 + 1 = armedCount s := by
  induction s with
  | nil => simp at h
  | cons o rest ih =>
    obtain ⟨r, hr, hpid, hst⟩ := h
    have hnd2 : o.dp_pid ∉ ids rest ∧ (ids rest).Nodup := by
      simpa [ids] using hnd
    unfold dp_find_first_and_delete
    by_cases ho : o.dp_pid = PID
    · rw [if_pos ho]
      have hro : r = o := by
        rcases List.mem_cons.mp hr with h1 | h1
        · exact h1
        · exfalso
          apply hnd2.1
          rw [ho, ← hpid]
          exact List.mem_map_of_mem _ h1
      subst hro
      simp [armedCount, List.countP_cons, hst]
    · rw [if_neg ho]
      have hr2 : r ∈ rest := by
        rcases List.mem_cons.mp hr with h1 | h1
        · exact absurd (h1 ▸ hpid) ho
        · exact h1
      have := ih hnd2.2 ⟨r, hr2, hpid, hst⟩
      simp only [armedCount, List.countP_cons] at this ⊢
      omega


/-- C7: when the identifiers are pairwise distinct and `PID_No_To_Trigger` is the
identifier of the `Armed` record `r` (node number `i`), `on_enforcement_timeout` replaces
exactly that node by `r` with `dp_timerStatus = 3`, clears `armed`, keeps the programmed
expiry and `PID_No_To_Trigger`, leaves `dp_Size` unchanged, and a second call changes
nothing. -/
theorem on_enforcement_timeout_fires (st : State) (i : Nat) (r : dp_list)
    (hnd : (ids st.dp_ListHead).Nodup) (hr : st.dp_ListHead[i]? = some r)
    (hpid : r.dp_pid = st.PID_No_To_Trigger) (harmed : r.dp_timerStatus = 2) :
    on_enforcement_timeout st
        = { dp_ListHead := st.dp_ListHead.set i { r with dp_timerStatus := 3 }
            budget_timer := { timer := st.budget_timer.timer, armed := 0 }
            PID_No_To_Trigger := st.PID_No_To_Trigger }
      ∧ ({ r with dp_timerStatus := 3 } : dp_list) ≠ r
      ∧ dp_Size (on_enforcement_timeout st).dp_ListHead = dp_Size st.dp_ListHead
      ∧ on_enforcement_timeout (on_enforcement_timeout st) = on_enforcement_timeout st := by
  refine ⟨?_, ?_, ?_, ?_⟩
  · unfold on_enforcement_timeout dp_set_tmrStatus
    rw [← hpid, map_pid_eq_set st.dp_ListHead hnd i r hr (fun o => { o with dp_timerStatus := 3 })]
  · intro h
    have h2 : (3 : Int) = r.dp_timerStatus := congrArg dp_list.dp_timerStatus h
    omega
  · exact dp_Size_map _ _
  · unfold on_enforcement_timeout
    simp only [dp_set_tmrStatus_twice]

theorem on_enforcement_timeout_fires_witness :
    (on_enforcement_timeout armedState).dp_ListHead
      = link_node (link_node [] 1 2 20 3 1 14 1 0) 3 1 5 1 1 4 3 0 :=
  congrArg State.dp_ListHead
    (on_enforcement_timeout_fires armedState 0 ⟨3, 1, 5, 1, 1, 4, 2, 0⟩
      (by decide) (by rfl) (by rfl) (by rfl)).1


theorem update_enforcement_timer_cases (find_task_by_vpid : Int → Option task_struct)
    (litmus_clock : Nat) (st : State) :
    (update_enforcement_timer find_task_by_vpid litmus_clock st).dp_ListHead = st.dp_ListHead
      ∨ ∃ t, dp_is_TimerARM st.dp_ListHead = 0
          ∧ find_task_by_vpid (dp_get_PID_earliest_trigger_time st.dp_ListHead) = some t
          ∧ dp_get_tmrStatus st.dp_ListHead (dp_get_PID_earliest_trigger_time st.dp_ListHead) = 1
          ∧ dp_get_time_to_Fire st.dp_ListHead (dp_get_PID_earliest_trigger_time st.dp_ListHead)
              > litmus_clock
          ∧ update_enforcement_timer find_task_by_vpid litmus_clock st
              = arm_enforcement_timer
                  { dp_ListHead := dp_set_tmrStatus st.dp_ListHead
                      (dp_get_PID_earliest_trigger_time st.dp_ListHead) 2
                    budget_timer := st.budget_timer
                    PID_No_To_Trigger := dp_get_PID_earliest_trigger_time st.dp_ListHead } t := by
  unfold update_enforcement_timer
  by_cases hsz : dp_Size st.dp_ListHead > 0
  · rw [if_pos hsz]
    by_cases harm : dp_is_TimerARM st.dp_ListHead = 0
    · simp only [if_pos harm]
      by_cases hp : dp_get_PID_earliest_trigger_time st.dp_ListHead > 0
      · simp only [if_pos hp]
        cases hf : find_task_by_vpid (dp_get_PID_earliest_trigger_time st.dp_ListHead) with
        | none => left; rfl
        | some t =>
          simp only []
          split
          · rename_i hc
            right
            exact ⟨t, harm, rfl, hc.2.1, hc.2.2, rfl⟩
          · left; rfl
      · simp only [if_neg hp]
        left; trivial
    · simp only [if_neg harm]
      split
      · split
        · rename_i hc
          exact absurd hc.1 harm
        · left; rfl
      · left; rfl
  · rw [if_neg hsz]
    left; rfl

/-- Arming postcondition: when the identifiers are pairwise distinct and
`update_enforcement_timer` turns node `i` from a record `r` that is not `Armed` into an `Armed`
one, then `r` was `AwaitingArm`, its trigger time is strictly after the clock value, the list
changes only in that node and only in `dp_timerStatus`, `PID_No_To_Trigger` is the identifier
of `r`, and if the task found for it carries that pid and is preemptible, the timer is
programmed for exactly the trigger time with `armed` set. -/
theorem update_enforcement_timer_arms (find_task_by_vpid : Int → Option task_struct)
    (litmus_clock : Nat) (st : State) (hnd : (ids st.dp_ListHead).Nodup)
    (i : Nat) (r r2 : dp_list) (hr : st.dp_ListHead[i]? = some r)
    (hr2 : (update_enforcement_timer find_task_by_vpid litmus_clock st).dp_ListHead[i]? = some r2)
    (hbefore : r.dp_timerStatus ≠ 2) (hafter : r2.dp_timerStatus = 2) :
    r.dp_timerStatus = 1
      ∧ dp_get_time_to_Fire st.dp_ListHead r.dp_pid > litmus_clock
      ∧ (update_enforcement_timer find_task_by_vpid litmus_clock st).dp_ListHead
          = st.dp_ListHead.set i { r with dp_timerStatus := 2 }
      ∧ (update_enforcement_timer find_task_by_vpid litmus_clock st).PID_No_To_Trigger = r.dp_pid
      ∧ ∀ t, find_task_by_vpid r.dp_pid = some t → t.pid = r.dp_pid → t.is_np = false →
          (update_enforcement_timer find_task_by_vpid litmus_clock st).budget_timer
            = { timer := dp_get_time_to_Fire st.dp_ListHead r.dp_pid, armed := 1 } := by
  have hmem : r ∈ st.dp_ListHead := List.getElem?_mem hr
  rcases update_enforcement_timer_cases find_task_by_vpid litmus_clock st with
    h | ⟨t, _, hfind, hst, htime, heq⟩
  · rw [h, hr] at hr2
    have : r = r2 := Option.some.inj hr2
    exact absurd (this ▸ hafter) hbefore
  · have hlist : (update_enforcement_timer find_task_by_vpid litmus_clock st).dp_ListHead
        = dp_set_tmrStatus st.dp_ListHead
            (dp_get_PID_earliest_trigger_time st.dp_ListHead) 2 := by
      rw [heq]; unfold arm_enforcement_timer; split <;> rfl
    have hpid : r.dp_pid = dp_get_PID_earliest_trigger_time st.dp_ListHead := by
      rw [hlist] at hr2
      unfold dp_set_tmrStatus at hr2
      rw [List.getElem?_map, hr, Option.map_some'] at hr2
      by_contra hne
      rw [if_neg hne] at hr2
      have : r = r2 := Option.some.inj hr2
      exact absurd (this ▸ hafter) hbefore
    rw [← hpid] at hfind hst htime heq hlist
    have hset : dp_set_tmrStatus st.dp_ListHead r.dp_pid 2
        = st.dp_ListHead.set i { r with dp_timerStatus := 2 } :=
      map_pid_eq_set st.dp_ListHead hnd i r hr (fun o => { o with dp_timerStatus := 2 })
    refine ⟨?_, htime, hlist.trans hset, ?_, ?_⟩
    · rw [← dp_get_tmrStatus_of_mem st.dp_ListHead hnd r hmem]; exact hst
    · rw [heq]; unfold arm_enforcement_timer; split <;> rfl
    · intro t2 hf2 ht2 hnp
      rw [hfind] at hf2
      have htt : t = t2 := Option.some.inj hf2
      subst htt
      have hnd2 : (ids (dp_set_tmrStatus st.dp_ListHead r.dp_pid 2)).Nodup := by
        unfold dp_set_tmrStatus
        rw [ids_map]
        · exact hnd
        · intro o; split <;> rfl
      have hmem2 : ({ r with dp_timerStatus := 2 } : dp_list)
          ∈ dp_set_tmrStatus st.dp_ListHead r.dp_pid 2 := by
        rw [hset]
        exact List.mem_set _ _ (List.getElem?_eq_some.mp hr).1 _
      have hs2 := dp_get_tmrStatus_of_mem _ hnd2 _ hmem2
      have hf2 := dp_get_time_to_Fire_of_mem _ hnd2 _ hmem2
      have hf1 := dp_get_time_to_Fire_of_mem _ hnd r hmem
      simp only [] at hs2 hf2
      rw [heq]
      unfold arm_enforcement_timer
      simp only [ht2, hs2, hnp, hf2, hf1]
      simp [trigger]

theorem update_enforcement_timer_arms_witness :
    (update_enforcement_timer find_live 0 awaitingState2).dp_ListHead
      = awaitingState2.dp_ListHead.set 0 ⟨3, 1, 5, 1, 1, 4, 2, 0⟩ :=
  (update_enforcement_timer_arms find_live 0 awaitingState2 (by decide) 0
    ⟨3, 1, 5, 1, 1, 4, 1, 0⟩ ⟨3, 1, 5, 1, 1, 4, 2, 0⟩ (by decide) (by decide) (by decide)
    (by decide)).2.2.1

/-- C8: on `awaitingState2` with every task live but non-preemptible and the clock at 0,
`dp_update_enforcement_timer` selects record 3 (`AwaitingArm`, trigger time 4) and changes
its `dp_timerStatus` to 2, but the timer is not programmed and `armed` stays 0. -/
theorem dp_update_marks_armed_without_timer :
    dp_get_PID_earliest_trigger_time awaitingState2.dp_ListHead = 3
      ∧ dp_get_tmrStatus awaitingState2.dp_ListHead 3 = 1
      ∧ dp_update_enforcement_timer find_np 0 awaitingState2
          = { dp_ListHead := link_node (link_node [] 1 2 20 3 1 14 1 0) 3 1 5 1 1 4 2 0
              budget_timer := { timer := 0, armed := 0 }
              PID_No_To_Trigger := 3 } := by
  decide


/-- C10: on `awaitingState` with task 1 live but non-preemptible and the clock at 0,
`update_enforcement_timer` selects record 1 (`AwaitingArm`, trigger time 10); after the call
`armed` is 0 and the record is in state 2, not 1. -/
theorem update_arms_non_preemptible :
    dp_get_PID_earliest_trigger_time awaitingState.dp_ListHead = 1
      ∧ dp_get_tmrStatus awaitingState.dp_ListHead 1 = 1
      ∧ (update_enforcement_timer find_np 0 awaitingState).budget_timer.armed = 0
      ∧ dp_get_tmrStatus (update_enforcement_timer find_np 0 awaitingState).dp_ListHead 1 = 2 := by
  decide


/-- C9, as stated, fails: in `armedState` the record 3 is `Armed` and the timer's `armed`
flag is set; after `dp_find_first_and_delete(3)` the flag is still set. -/
theorem delete_armed_keeps_timer_armed :
    dp_get_tmrStatus armedState.dp_ListHead 3 = 2
      ∧ armedState.budget_timer.armed = 1
      ∧ ¬ (dp_Size ((Event.delete 3).exec armedState).dp_ListHead
              = dp_Size armedState.dp_ListHead - 1
            ∧ armedCount ((Event.delete 3).exec armedState).dp_ListHead = 0
            ∧ ((Event.delete 3).exec armedState).budget_timer.armed = 0) := by
  decide

/-- C9, amended: in a state with pairwise distinct identifiers and at most one `Armed`
record (fewer than `2 ^ 31` records), if the record `id` is `Armed` then
`dp_find_first_and_delete(id)` returns 1, `dp_Size()` drops by one and no record is `Armed`;
the timer (its `armed` flag and programmed expiry) and `PID_No_To_Trigger` are unchanged. -/
theorem delete_armed_record (st : State) (id : Int) (hinv : Inv st)
    (hlen : st.dp_ListHead.length < 2 ^ 31)
    (hid : ∃ r ∈ st.dp_ListHead, r.dp_pid = id ∧ r.dp_timerStatus = 2) :
    (dp_find_first_and_delete st.dp_ListHead id).1 = 1
      ∧ dp_Size ((Event.delete id).exec st).dp_ListHead = dp_Size st.dp_ListHead - 1
      ∧ armedCount ((Event.delete id).exec st).dp_ListHead = 0
      ∧ ((Event.delete id).exec st).budget_timer = st.budget_timer
      ∧ ((Event.delete id).exec st).PID_No_To_Trigger = st.PID_No_To_Trigger := by
  obtain ⟨r, hr, hpid, hst⟩ := hid
  have hmem : id ∈ ids st.dp_ListHead := hpid ▸ List.mem_map_of_mem _ hr
  have hl := delete_length_of_mem st.dp_ListHead id hmem
  have hc := delete_armedCount st.dp_ListHead id hinv.1 ⟨r, hr, hpid, hst⟩
  refine ⟨delete_fst_of_mem _ _ hmem, ?_, ?_, rfl, rfl⟩
  · show dp_Size (dp_find_first_and_delete st.dp_ListHead id).2 = _
    rw [dp_Size_eq_length _ hlen, dp_Size_eq_length _ (by omega)]
    omega
  · show armedCount (dp_find_first_and_delete st.dp_ListHead id).2 = 0
    have := hinv.2
    omega

theorem delete_armed_record_witness :
    armedCount ((Event.delete 3).exec armedState).dp_ListHead = 0
      ∧ ((Event.delete 3).exec armedState).budget_timer.armed = 1 :=
  ⟨(delete_armed_record armedState 3 ⟨by decide, by decide⟩ (by decide)
      ⟨⟨3, 1, 5, 1, 1, 4, 2, 0⟩, by decide, by decide, by decide⟩).2.2.1,
    by decide⟩


/-! ## The controller while a record is armed or fired -/

theorem dp_is_TimerARM_of_mem (s : Store) (r : dp_list) (hr : r ∈ s)
    (h : r.dp_timerStatus > 1 ∧ r.dp_timerStatus < 4) : dp_is_TimerARM s = 1 := by
  unfold dp_is_TimerARM
  split
  · rfl
  · rename_i hnone
    have := List.find?_eq_none.mp hnone r hr
    simp only [decide_eq_true_eq] at this
    exact absurd h this

theorem update_enforcement_timer_of_TimerARM (find_task_by_vpid : Int → Option task_struct)
    (litmus_clock : Nat) (st : State) (h : dp_is_TimerARM st.dp_ListHead = 1) :
    update_enforcement_timer find_task_by_vpid litmus_clock st = st := by
  have hne : ¬ dp_is_TimerARM st.dp_ListHead = 0 := by rw [h]; decide
  unfold update_enforcement_timer
  by_cases hsz : dp_Size st.dp_ListHead > 0
  · rw [if_pos hsz]
    simp only [if_neg hne]
    split
    · split
      · rename_i hc
        exact absurd hc.1 hne
      · rfl
    · rfl
  · rw [if_neg hsz]

/-- C11: in every state in which some record is `Armed`, `update_enforcement_timer` and
`dp_update_enforcement_timer` return the state unchanged (every record, the `armed` flag, the
programmed expiry and `PID_No_To_Trigger`), whatever the other records, the task lookup and
the clock are. -/
theorem update_enforcement_timer_armed_noop (find_task_by_vpid : Int → Option task_struct)
    (litmus_clock : Nat) (st : State) (h : ∃ r ∈ st.dp_ListHead, r.dp_timerStatus = 2) :
    update_enforcement_timer find_task_by_vpid litmus_clock st = st
      ∧ dp_update_enforcement_timer find_task_by_vpid litmus_clock st = st := by
  obtain ⟨r, hr, hst⟩ := h
  have harm : dp_is_TimerARM st.dp_ListHead = 1 :=
    dp_is_TimerARM_of_mem _ r hr (by omega)
  exact ⟨update_enforcement_timer_of_TimerARM _ _ st harm,
    update_enforcement_timer_of_TimerARM _ _ st harm⟩

theorem update_enforcement_timer_armed_noop_witness :
    update_enforcement_timer find_live 0 staleArmedState = staleArmedState :=
  (update_enforcement_timer_armed_noop find_live 0 staleArmedState
    ⟨⟨1, 2, 20, 3, 1, 14, 2, 0⟩, by decide, by decide⟩).1

/-! ## The selector: the result 0 and ties -/

theorem earliest_step_found (s : Store) (hnd : (ids s).Nodup)
    (seen : Store) (acc : Nat × Int) (o : dp_list) (ho : o ∈ s) (h : SelFound seen acc) :
    SelFound (seen ++ [o]) (earliest_step s acc o) := by
  unfold earliest_step
  rw [dp_get_tmrStatus_of_mem s hnd o ho, dp_get_time_to_Fire_of_mem s hnd o ho]
  by_cases h1 : acc.1 = 0 ∧ o.dp_timerStatus = 1
  · rw [if_pos h1]
    exact Or.inr ⟨o, by simp, h1.2, rfl⟩
  · rw [if_neg h1]
    by_cases h2 : acc.1 > trigger o ∧ o.dp_timerStatus = 1
    · rw [if_pos h2]
      exact Or.inr ⟨o, by simp, h2.2, rfl⟩
    · rw [if_neg h2]
      rcases h with ⟨h0, hnone⟩ | ⟨r, hr, hst, hpid⟩
      · left
        refine ⟨h0, ?_⟩
        intro o2 ho2
        rcases List.mem_append.mp ho2 with h3 | h3
        · exact hnone o2 h3
        · rw [List.mem_singleton.mp h3]
          intro hst
          exact h1 ⟨by rw [h0], hst⟩
      · exact Or.inr ⟨r, List.mem_append_left _ hr, hst, hpid⟩

theorem earliest_fold_found (s : Store) (hnd : (ids s).Nodup) (l : Store) :
    ∀ (seen : Store) (acc : Nat × Int), (∀ o ∈ l, o ∈ s) → SelFound seen acc →
      SelFound (seen ++ l) (l.foldl (earliest_step s) acc) := by
  induction l with
  | nil => intro seen acc _ h; simpa using h
  | cons o rest ih =>
    intro seen acc hl h
    have h1 := earliest_step_found s hnd seen acc o (hl o (List.mem_cons_self _ _)) h
    have h2 := ih (seen ++ [o]) (earliest_step s acc o)
      (fun x hx => hl x (List.mem_cons_of_mem _ hx)) h1
    simpa using h2

theorem selector_found (s : Store) (hnd : (ids s).Nodup) :
    SelFound s (s.foldl (earliest_step s) (0, 0)) := by
  have h := earliest_fold_found s hnd s [] (0, 0) (fun _ ho => ho)
    (Or.inl ⟨rfl, fun _ ho => absurd ho (List.not_mem_nil _)⟩)
  rw [List.nil_append] at h
  exact h

theorem selector_awaiting_of_ne_zero (s : Store) (hnd : (ids s).Nodup)
    (h : dp_get_PID_earliest_trigger_time s ≠ 0) :
    ∃ r ∈ s, r.dp_timerStatus = 1 ∧ r.dp_pid = dp_get_PID_earliest_trigger_time s := by
  rcases selector_found s hnd with ⟨h0, _⟩ | h1
  · exfalso
    apply h
    unfold dp_get_PID_earliest_trigger_time
    rw [h0]
  · exact h1

/-- C12, as stated, fails: in `duplicateTasks` every identifier is non-zero and the
second record is `AwaitingArm`, but `dp_get_tmrStatus` answers for the first record with that
identifier (state 0), so the selector returns 0. -/
theorem selector_none_with_duplicate_ids :
    (∀ r ∈ duplicateTasks, r.dp_pid ≠ 0)
      ∧ (∃ r ∈ duplicateTasks, r.dp_timerStatus = 1)
      ∧ duplicateTasks ≠ []
      ∧ dp_get_PID_earliest_trigger_time duplicateTasks = 0 := by
  decide

/-- C12, amended: when the identifiers are pairwise distinct and non-zero,
`dp_get_PID_earliest_trigger_time` returns 0 exactly when the list is empty or no record is
`AwaitingArm`; otherwise it returns the identifier of a record that is `AwaitingArm`. -/
theorem selector_none_iff (s : Store) (hnd : (ids s).Nodup) (hnz : ∀ r ∈ s, r.dp_pid ≠ 0) :
    (dp_get_PID_earliest_trigger_time s = 0 ↔ (s = [] ∨ ∀ r ∈ s, r.dp_timerStatus ≠ 1))
      ∧ (¬ (s = [] ∨ ∀ r ∈ s, r.dp_timerStatus ≠ 1) →
          ∃ r ∈ s, r.dp_timerStatus = 1 ∧ r.dp_pid = dp_get_PID_earliest_trigger_time s) := by
  have hiff : dp_get_PID_earliest_trigger_time s = 0
      ↔ (s = [] ∨ ∀ r ∈ s, r.dp_timerStatus ≠ 1) := by
    constructor
    · intro h0
      right
      rcases selector_found s hnd with ⟨_, hnone⟩ | ⟨r, hr, _, hpid⟩
      · exact hnone
      · exfalso
        apply hnz r hr
        rw [hpid]
        exact h0
    · intro h
      have hnone : ∀ r ∈ s, r.dp_timerStatus ≠ 1 := by
        rcases h with h | h
        · rw [h]; exact fun _ hr => absurd hr (List.not_mem_nil _)
        · exact h
      rcases selector_found s hnd with ⟨h0, _⟩ | ⟨r, hr, hst, _⟩
      · unfold dp_get_PID_earliest_trigger_time
        rw [h0]
      · exact absurd hst (hnone r hr)
  exact ⟨hiff, fun hn => selector_awaiting_of_ne_zero s hnd (fun h0 => hn (hiff.mp h0))⟩

theorem selector_none_iff_witness :
    dp_get_PID_earliest_trigger_time threeTasks = 0
      ↔ (threeTasks = [] ∨ ∀ r ∈ threeTasks, r.dp_timerStatus ≠ 1) :=
  (selector_none_iff threeTasks (by decide) (by decide)).1

theorem earliest_fold_keep (s : Store) (hnd : (ids s).Nodup) (r : dp_list)
    (hnz : trigger r ≠ 0) (post : Store) (hsub : ∀ o ∈ post, o ∈ s)
    (h : ∀ o ∈ post, o.dp_timerStatus = 1 → trigger r ≤ trigger o) :
    post.foldl (earliest_step s) (trigger r, r.dp_pid) = (trigger r, r.dp_pid) := by
  induction post with
  | nil => rfl
  | cons o rest ih =>
    have ho := hsub o (List.mem_cons_self _ _)
    have hstep : earliest_step s (trigger r, r.dp_pid) o = (trigger r, r.dp_pid) := by
      unfold earliest_step
      rw [dp_get_tmrStatus_of_mem s hnd o ho, dp_get_time_to_Fire_of_mem s hnd o ho]
      rw [if_neg (fun hc => hnz hc.1), if_neg]
      intro hc
      have := h o (List.mem_cons_self _ _) hc.2
      have := hc.1
      simp only at this
      omega
    rw [List.foldl_cons, hstep]
    exact ih (fun x hx => hsub x (List.mem_cons_of_mem _ hx))
      (fun x hx => h x (List.mem_cons_of_mem _ hx))

theorem earliest_fold_above (s : Store) (hnd : (ids s).Nodup) (r : dp_list) (pre : Store) :
    ∀ acc : Nat × Int, (∀ o ∈ pre, o ∈ s) →
      (∀ o ∈ pre, o.dp_timerStatus = 1 → trigger r < trigger o) →
      (acc.1 = 0 ∨ trigger r < acc.1) →
      (pre.foldl (earliest_step s) acc).1 = 0 ∨ trigger r < (pre.foldl (earliest_step s) acc).1 := by
  induction pre with
  | nil => intro acc _ _ h; exact h
  | cons o rest ih =>
    intro acc hsub h hacc
    have ho := hsub o (List.mem_cons_self _ _)
    rw [List.foldl_cons]
    apply ih _ (fun x hx => hsub x (List.mem_cons_of_mem _ hx))
      (fun x hx => h x (List.mem_cons_of_mem _ hx))
    unfold earliest_step
    rw [dp_get_tmrStatus_of_mem s hnd o ho, dp_get_time_to_Fire_of_mem s hnd o ho]
    by_cases h1 : acc.1 = 0 ∧ o.dp_timerStatus = 1
    · rw [if_pos h1]
      exact Or.inr (h o (List.mem_cons_self _ _) h1.2)
    · rw [if_neg h1]
      by_cases h2 : acc.1 > trigger o ∧ o.dp_timerStatus = 1
      · rw [if_pos h2]
        exact Or.inr (h o (List.mem_cons_self _ _) h2.2)
      · rw [if_neg h2]
        exact hacc

theorem earliest_step_take (s : Store) (hnd : (ids s).Nodup) (r : dp_list) (hr : r ∈ s)
    (hst : r.dp_timerStatus = 1) (acc : Nat × Int) (hacc : acc.1 = 0 ∨ trigger r < acc.1) :
    earliest_step s acc r = (trigger r, r.dp_pid) := by
  unfold earliest_step
  rw [dp_get_tmrStatus_of_mem s hnd r hr, dp_get_time_to_Fire_of_mem s hnd r hr]
  rcases hacc with h0 | hgt
  · rw [if_pos ⟨h0, hst⟩]
  · have hne : ¬ (acc.1 = 0 ∧ r.dp_timerStatus = 1) := fun hc => by have := hc.1; omega
    rw [if_neg hne, if_pos ⟨hgt, hst⟩]

theorem selector_first_min (pre post : Store) (r : dp_list)
    (hnd : (ids (pre ++ r :: post)).Nodup) (hst : r.dp_timerStatus = 1) (hnz : trigger r ≠ 0)
    (hpre : ∀ o ∈ pre, o.dp_timerStatus = 1 → trigger r < trigger o)
    (hpost : ∀ o ∈ post, o.dp_timerStatus = 1 → trigger r ≤ trigger o) :
    dp_get_PID_earliest_trigger_time (pre ++ r :: post) = r.dp_pid := by
  have hr : r ∈ pre ++ r :: post := by simp
  have hsubpre : ∀ o ∈ pre, o ∈ pre ++ r :: post := fun o ho => List.mem_append_left _ ho
  have hsubpost : ∀ o ∈ post, o ∈ pre ++ r :: post :=
    fun o ho => List.mem_append_right _ (List.mem_cons_of_mem _ ho)
  have h1 := earliest_fold_above (pre ++ r :: post) hnd r pre (0, 0) hsubpre hpre (Or.inl rfl)
  have hstep := earliest_step_take (pre ++ r :: post) hnd r hr hst _ h1
  unfold dp_get_PID_earliest_trigger_time
  rw [List.foldl_append, List.foldl_cons, hstep,
    earliest_fold_keep _ hnd r hnz post hsubpost hpost]

/-- C19, as stated, fails: on `roomyLayout` (every node's block holds the record) the
records 1 and 2 are added in this order, both `AwaitingArm` with the same trigger time 5; the
list is traversed 2, 1 and the selector returns 2, the record added last, not 1. -/
theorem selector_tie_returns_last_inserted :
    insert_all roomyLayout tiedRecords = some tiedRecords.reverse
      ∧ (ids tiedRecords.reverse).Nodup
      ∧ (∀ r ∈ tiedRecords.reverse, r.dp_pid ≠ 0 ∧ r.dp_timerStatus = 1)
      ∧ dp_get_time_to_Fire tiedRecords.reverse 1 = 5
      ∧ dp_get_time_to_Fire tiedRecords.reverse 2 = 5
      ∧ tiedRecords.map (fun r => r.dp_pid) = [1, 2]
      ∧ dp_get_PID_earliest_trigger_time tiedRecords.reverse ≠ 1
      ∧ dp_get_PID_earliest_trigger_time tiedRecords.reverse = 2 := by
  decide

/-- C19, amended: the records are added by `add_dp_node` in the order `older`, `r`, `newer`
(pairwise distinct identifiers), each into a block that holds the record; `add_dp_node` links
each at the head, so the list is traversed newest first. If `r` is `AwaitingArm` with a
non-zero trigger time that no `AwaitingArm` record undercuts and that every `AwaitingArm`
record added after `r` exceeds, the selector returns the identifier of `r`: among tied
records the one added last, which is met first. -/
theorem selector_tie_break (L : Layout) (block : Nat)
    (hk : L.kmalloc L.sizeof_dp_list_ptr = some block) (hfit : L.sizeof_dp_list ≤ block)
    (older newer : List dp_list) (r : dp_list)
    (hnd : (ids (older ++ r :: newer)).Nodup) (hst : r.dp_timerStatus = 1)
    (hnz : trigger r ≠ 0)
    (hold : ∀ o ∈ older, o.dp_timerStatus = 1 → trigger r ≤ trigger o)
    (hnew : ∀ o ∈ newer, o.dp_timerStatus = 1 → trigger r < trigger o) :
    insert_all L (older ++ r :: newer) = some (newer.reverse ++ r :: older.reverse)
      ∧ dp_get_PID_earliest_trigger_time (newer.reverse ++ r :: older.reverse) = r.dp_pid := by
  have hrev : (older ++ r :: newer).reverse = newer.reverse ++ r :: older.reverse := by
    simp
  refine ⟨by rw [insert_all_of_fits L block hk hfit, hrev], ?_⟩
  apply selector_first_min _ _ r _ hst hnz
  · intro o ho; exact hnew o (List.mem_reverse.mp ho)
  · intro o ho; exact hold o (List.mem_reverse.mp ho)
  · have hperm : List.Perm (ids (newer.reverse ++ r :: older.reverse))
        (ids (older ++ r :: newer)) := by
      rw [← hrev]
      unfold ids
      exact (List.reverse_perm _).map _
    exact hperm.nodup_iff.mpr hnd

theorem selector_tie_break_witness :
    insert_all roomyLayout tiedRecords = some tiedRecords.reverse
      ∧ dp_get_PID_earliest_trigger_time tiedRecords.reverse = 2 :=
  selector_tie_break roomyLayout 128 (by decide) (by decide)
    [⟨1, 1, 6, 1, 1, 5, 1, 0⟩] [] ⟨2, 1, 6, 1, 1, 5, 1, 0⟩
    (by decide) (by decide) (by decide) (by decide) (by decide)

/-! ## The store: removal, unknown and duplicate identifiers, the point accessor -/

theorem find?_pid_none (s : Store) (id : Int) (h : id ∉ ids s) :
    s.find? (fun objPtr => decide (objPtr.dp_pid = id)) = none := by
  rw [List.find?_eq_none]
  intro r hr
  simp only [decide_eq_true_eq]
  intro hp
  exact h (hp ▸ List.mem_map_of_mem _ hr)

theorem map_pid_unknown (s : Store) (PID : Int) (h : PID ∉ ids s) (g : dp_list → dp_list) :
    s.map (fun objPtr => if objPtr.dp_pid = PID then g objPtr else objPtr) = s := by
  have : s.map (fun objPtr => if objPtr.dp_pid = PID then g objPtr else objPtr)
      = s.map (fun objPtr => objPtr) := by
    apply List.map_congr_left
    intro r hr
    rw [if_neg]
    intro hp
    exact h (hp ▸ List.mem_map_of_mem _ hr)
  rw [this, List.map_id']

/-- C14: for an identifier with no resident record the six readers return 0 and the four
mutators return the list unchanged. -/
theorem unknown_identifier_sentinel (s : Store) (id : Int) (h : id ∉ ids s)
    (Pri2 tmrStatus : Int) (PrPoint time_to_Fire_Value : Nat) :
    dp_get_Pri1 s id = 0 ∧ dp_get_Pri2 s id = 0 ∧ dp_get_PrPoint s id = 0
      ∧ dp_get_tmrStatus s id = 0 ∧ dp_get_time_to_Fire s id = 0 ∧ dp_Find_PID s id = 0
      ∧ dp_set_Pri2 s id Pri2 = s ∧ dp_set_PrPoint s id PrPoint = s
      ∧ dp_set_tmrStatus s id tmrStatus = s
      ∧ dp_set_time_Released s id time_to_Fire_Value = s := by
  have hf := find?_pid_none s id h
  refine ⟨?_, ?_, ?_, ?_, ?_, ?_, ?_, ?_, ?_, ?_⟩
  · unfold dp_get_Pri1; rw [hf]
  · unfold dp_get_Pri2; rw [hf]
  · unfold dp_get_PrPoint; rw [hf]
  · unfold dp_get_tmrStatus; rw [hf]
  · unfold dp_get_time_to_Fire; rw [hf]
  · unfold dp_Find_PID; rw [dp_Find_PID_fold, if_neg h]
  · exact map_pid_unknown s id h _
  · exact map_pid_unknown s id h _
  · exact map_pid_unknown s id h _
  · exact map_pid_unknown s id h _

theorem unknown_identifier_sentinel_witness :
    dp_get_PrPoint threeTasks 7 = 0 ∧ dp_set_tmrStatus threeTasks 7 2 = threeTasks :=
  ⟨(unknown_identifier_sentinel threeTasks 7 (by decide) 0 2 0 0).2.2.1,
    (unknown_identifier_sentinel threeTasks 7 (by decide) 0 2 0 0).2.2.2.2.2.2.2.2.1⟩

theorem delete_fst_zero_or_one (s : Store) (PID : Int) :
    (dp_find_first_and_delete s PID).1 = 0 ∨ (dp_find_first_and_delete s PID).1 = 1 := by
  induction s with
  | nil => left; rfl
  | cons o rest ih =>
    unfold dp_find_first_and_delete
    by_cases ho : o.dp_pid = PID
    · rw [if_pos ho]; right; rfl
    · rw [if_neg ho]; exact ih

theorem delete_fst_of_not_mem (s : Store) (PID : Int) (h : PID ∉ ids s) :
    (dp_find_first_and_delete s PID).1 = 0 ∧ (dp_find_first_and_delete s PID).2 = s := by
  induction s with
  | nil => exact ⟨rfl, rfl⟩
  | cons o rest ih =>
    have h2 : ¬ o.dp_pid = PID ∧ PID ∉ ids rest := by
      simp only [ids, List.map_cons, List.mem_cons, not_or] at h
      exact ⟨fun e => h.1 e.symm, h.2⟩
    unfold dp_find_first_and_delete
    rw [if_neg h2.1]
    have := ih h2.2
    exact ⟨this.1, by rw [this.2]⟩

theorem delete_split_of_mem (s : Store) (PID : Int) (h : PID ∈ ids s) :
    ∃ pre r post, s = pre ++ r :: post ∧ PID ∉ ids pre ∧ r.dp_pid = PID
      ∧ (dp_find_first_and_delete s PID).2 = pre ++ post := by
  induction s with
  | nil => simp [ids] at h
  | cons o rest ih =>
    unfold dp_find_first_and_delete
    by_cases ho : o.dp_pid = PID
    · rw [if_pos ho]
      exact ⟨[], o, rest, rfl, by simp [ids], ho, rfl⟩
    · rw [if_neg ho]
      have h2 : PID ∈ ids rest := by
        simp only [ids, List.map_cons, List.mem_cons] at h
        rcases h with h | h
        · exact absurd h.symm ho
        · exact h
      obtain ⟨pre, r, post, hs, hpre, hr, hres⟩ := ih h2
      refine ⟨o :: pre, r, post, by rw [hs]; rfl, ?_, hr, by rw [hres]; rfl⟩
      simp only [ids, List.map_cons, List.mem_cons, not_or]
      exact ⟨fun e => ho e.symm, hpre⟩

/-- C13: `dp_find_first_and_delete` returns 1 exactly when the identifier is resident
(and 0 otherwise); when it returns 1 the list was `pre ++ r :: post` with `r` the first
record of that identifier and becomes `pre ++ post`, and `dp_Size` drops by one; when it
returns 0 the list is unchanged. The list holds fewer than `2 ^ 31` records, the range of the
`int` counter of `dp_Size`. -/
theorem dp_find_first_and_delete_spec (s : Store) (id : Int) (hlen : s.length < 2 ^ 31) :
    ((dp_find_first_and_delete s id).1 = 1 ↔ id ∈ ids s)
      ∧ ((dp_find_first_and_delete s id).1 = 0 ∨ (dp_find_first_and_delete s id).1 = 1)
      ∧ ((dp_find_first_and_delete s id).1 = 1 →
          (∃ pre r post, s = pre ++ r :: post ∧ id ∉ ids pre ∧ r.dp_pid = id
            ∧ (dp_find_first_and_delete s id).2 = pre ++ post)
          ∧ dp_Size (dp_find_first_and_delete s id).2 = dp_Size s - 1)
      ∧ ((dp_find_first_and_delete s id).1 = 0 → (dp_find_first_and_delete s id).2 = s) := by
  have hiff : (dp_find_first_and_delete s id).1 = 1 ↔ id ∈ ids s := by
    constructor
    · intro h1
      by_contra hn
      rw [(delete_fst_of_not_mem s id hn).1] at h1
      exact absurd h1 (by decide)
    · exact delete_fst_of_mem s id
  refine ⟨hiff, delete_fst_zero_or_one s id, ?_, ?_⟩
  · intro h1
    have hmem := hiff.mp h1
    refine ⟨delete_split_of_mem s id hmem, ?_⟩
    have hl := delete_length_of_mem s id hmem
    rw [dp_Size_eq_length _ hlen, dp_Size_eq_length _ (by omega)]
    omega
  · intro h0
    by_cases hmem : id ∈ ids s
    · rw [hiff.mpr hmem] at h0
      exact absurd h0 (by decide)
    · exact (delete_fst_of_not_mem s id hmem).2

theorem dp_find_first_and_delete_spec_witness :
    (dp_find_first_and_delete threeTasks 2).1 = 1 ↔ (2 : Int) ∈ ids threeTasks :=
  (dp_find_first_and_delete_spec threeTasks 2 (by decide)).1

/-- C15, as stated, fails: `oneTask` holds identifier 1; on `roomyLayout` (the node's block
holds the record) adding identifier 1 again gives a list with a second record: `dp_Size`
changes (1 to 2) and so does what the accessors return for the identifier. -/
theorem add_dp_node_duplicate_not_rejected :
    (1 : Int) ∈ ids oneTask
      ∧ add_dp_node roomyLayout oneTask 1 4 9 5 6 7 0 8
          = some (link_node oneTask 1 4 9 5 6 7 0 8)
      ∧ ¬ (dp_Size (link_node oneTask 1 4 9 5 6 7 0 8) = dp_Size oneTask
            ∧ dp_get_Pri1 (link_node oneTask 1 4 9 5 6 7 0 8) 1 = dp_get_Pri1 oneTask 1
            ∧ dp_get_Pri2 (link_node oneTask 1 4 9 5 6 7 0 8) 1 = dp_get_Pri2 oneTask 1
            ∧ dp_get_PrPoint (link_node oneTask 1 4 9 5 6 7 0 8) 1 = dp_get_PrPoint oneTask 1
            ∧ dp_get_tmrStatus (link_node oneTask 1 4 9 5 6 7 0 8) 1
                = dp_get_tmrStatus oneTask 1
            ∧ dp_get_time_to_Fire (link_node oneTask 1 4 9 5 6 7 0 8) 1
                = dp_get_time_to_Fire oneTask 1) := by
  decide

/-- C15, amended: adding an identifier that is already resident is not rejected. When the
block allocated for the node holds the record, `add_dp_node` returns the list with the new
record linked at the head: `dp_Size` grows by one (fewer than `2 ^ 31` records afterwards),
the accessors return for the identifier the values of the new record, and removing the
identifier once gives back the list as it was, in which it is still resident. -/
theorem add_dp_node_duplicate (L : Layout) (block : Nat)
    (hk : L.kmalloc L.sizeof_dp_list_ptr = some block) (hfit : L.sizeof_dp_list ≤ block)
    (s : Store) (id : Int) (h : id ∈ ids s)
    (hlen : s.length + 1 < 2 ^ 31) (tsk_C tsk_D : Nat) (pfp_priority dp_priority : Int)
    (dp_PrPoint : Nat) (tmrStatus : Int) (time_to_fired : Nat) :
    add_dp_node L s id tsk_C tsk_D pfp_priority dp_priority dp_PrPoint tmrStatus time_to_fired
        = some (link_node s id tsk_C tsk_D pfp_priority dp_priority dp_PrPoint tmrStatus
            time_to_fired)
      ∧ dp_Size (link_node s id tsk_C tsk_D pfp_priority dp_priority dp_PrPoint tmrStatus
        time_to_fired) = dp_Size s + 1
      ∧ dp_get_Pri1 (link_node s id tsk_C tsk_D pfp_priority dp_priority dp_PrPoint tmrStatus
          time_to_fired) id = pfp_priority
      ∧ dp_get_Pri2 (link_node s id tsk_C tsk_D pfp_priority dp_priority dp_PrPoint tmrStatus
          time_to_fired) id = dp_priority
      ∧ dp_get_PrPoint (link_node s id tsk_C tsk_D pfp_priority dp_priority dp_PrPoint
          tmrStatus time_to_fired) id = int_to_lt (lt_to_int dp_PrPoint)
      ∧ dp_get_tmrStatus (link_node s id tsk_C tsk_D pfp_priority dp_priority dp_PrPoint
          tmrStatus time_to_fired) id = tmrStatus
      ∧ dp_get_time_to_Fire (link_node s id tsk_C tsk_D pfp_priority dp_priority dp_PrPoint
          tmrStatus time_to_fired) id = lt_add time_to_fired dp_PrPoint
      ∧ dp_find_first_and_delete (link_node s id tsk_C tsk_D pfp_priority dp_priority
          dp_PrPoint tmrStatus time_to_fired) id = (1, s)
      ∧ dp_Find_PID s id = 1 := by
  refine ⟨add_dp_node_of_fits L block hk hfit _ _ _ _ _ _ _ _ _, ?_, ?_, ?_, ?_, ?_, ?_, ?_, ?_⟩
  · have hl : (link_node s id tsk_C tsk_D pfp_priority dp_priority dp_PrPoint tmrStatus
        time_to_fired).length = s.length + 1 := rfl
    rw [dp_Size_eq_length s (by omega), dp_Size_eq_length _ (by rw [hl]; exact hlen), hl]
    push_cast
    rfl
  · simp [dp_get_Pri1, link_node]
  · simp [dp_get_Pri2, link_node]
  · simp [dp_get_PrPoint, link_node]
  · simp [dp_get_tmrStatus, link_node]
  · simp [dp_get_time_to_Fire, link_node]
  · simp [dp_find_first_and_delete, link_node]
  · unfold dp_Find_PID; rw [dp_Find_PID_fold, if_pos h]

theorem add_dp_node_duplicate_witness :
    add_dp_node roomyLayout oneTask 1 4 9 5 6 7 0 8 = some (link_node oneTask 1 4 9 5 6 7 0 8)
      ∧ dp_get_Pri1 (link_node oneTask 1 4 9 5 6 7 0 8) 1 = 5 :=
  ⟨(add_dp_node_duplicate roomyLayout 128 (by decide) (by decide) oneTask 1 (by decide)
      (by decide) 4 9 5 6 7 0 8).1,
    (add_dp_node_duplicate roomyLayout 128 (by decide) (by decide) oneTask 1 (by decide)
      (by decide) 4 9 5 6 7 0 8).2.2.1⟩

/-- C20: in `oneTask` (identifier 1 resident), after `dp_set_PrPoint(1, 5000000000)` the
accessor `dp_get_PrPoint(1)` returns 705032704, the value reduced to the 32 bits of its local
`int PrPoint`. -/
theorem dp_get_PrPoint_truncates :
    (ids oneTask).Nodup ∧ (1 : Int) ∈ ids oneTask ∧ 5000000000 < 2 ^ 64
      ∧ dp_get_PrPoint (dp_set_PrPoint oneTask 1 5000000000) 1 = 705032704 := by
  decide

theorem int_roundtrip_small (p : Nat) (h : p < 2 ^ 31) : int_to_lt (lt_to_int p) = p := by
  unfold int_to_lt lt_to_int int_wrap
  omega

theorem dp_get_PrPoint_set_small (s : Store) (id : Int) (h : id ∈ ids s) (p : Nat)
    (hp : p < 2 ^ 31) : dp_get_PrPoint (dp_set_PrPoint s id p) id = p := by
  induction s with
  | nil => simp [ids] at h
  | cons o rest ih =>
    unfold dp_set_PrPoint dp_get_PrPoint
    by_cases ho : o.dp_pid = id
    · simp [ho, List.find?_cons, int_roundtrip_small p hp]
    · have h2 : id ∈ ids rest := by
        simp only [ids, List.map_cons, List.mem_cons] at h
        rcases h with h | h
        · exact absurd h.symm ho
        · exact h
      have := ih h2
      unfold dp_set_PrPoint dp_get_PrPoint at this
      simp only [List.map_cons, if_neg ho, List.find?_cons, decide_eq_false ho]
      exact this

/-! ## The ranks under ties -/

theorem countP_lt_of_imp {α : Type} (p q : α → Bool) (l : List α)
    (himp : ∀ x ∈ l, p x = true → q x = true) (hex : ∃ x ∈ l, q x = true ∧ p x = false) :
    l.countP p < l.countP q := by
  induction l with
  | nil => simp at hex
  | cons a rest ih =>
    have hmono : rest.countP p ≤ rest.countP q :=
      List.countP_mono_left (fun x hx => himp x (List.mem_cons_of_mem _ hx))
    obtain ⟨x, hx, hq, hp⟩ := hex
    rw [List.countP_cons, List.countP_cons]
    rcases List.mem_cons.mp hx with h1 | h1
    · subst h1
      rw [if_pos hq, if_neg (by rw [hp]; decide)]
      omega
    · have := ih (fun y hy => himp y (List.mem_cons_of_mem _ hy)) ⟨x, h1, hq, hp⟩
      have ha := himp a (List.mem_cons_self _ _)
      by_cases hpa : p a = true
      · rw [if_pos hpa, if_pos (ha hpa)]
        omega
      · rw [if_neg hpa]
        by_cases hqa : q a = true
        · rw [if_pos hqa]; omega
        · rw [if_neg hqa]; omega

theorem earlierCount_strict (s : Store) (A : dp_list) (hA : A ∈ s) (e : Nat)
    (h : A.tsk_D < e) : earlierCount s A.tsk_D < earlierCount s e := by
  unfold earlierCount
  apply countP_lt_of_imp
  · intro B _ hB
    simp only [decide_eq_true_eq] at hB ⊢
    omega
  · exact ⟨A, hA, by simpa using h, by simp⟩

theorem earlierCount_inj (s : Store) (A B : dp_list) (hA : A ∈ s) (hB : B ∈ s)
    (h : earlierCount s A.tsk_D = earlierCount s B.tsk_D) : A.tsk_D = B.tsk_D := by
  rcases Nat.lt_trichotomy A.tsk_D B.tsk_D with h1 | h1 | h1
  · have := earlierCount_strict s A hA _ h1; omega
  · exact h1
  · have := earlierCount_strict s B hB _ h1; omega

/-- C17, as stated, fails: `tiedDeadlines` has the deadlines 5, 5, 10 (two distinct
values) and gets the promoted priorities 1, 1, 3, not the set {1, 2}. -/
theorem ranks_with_tied_deadlines :
    (ids tiedDeadlines).Nodup
      ∧ ((tiedDeadlines.map (fun r => r.tsk_D)).dedup).length = 2
      ∧ (calculate_Pri2_RM tiedDeadlines).map (fun r => r.dp_priority) = [1, 1, 3]
      ∧ ¬ (∀ v : Int, v ∈ (calculate_Pri2_RM tiedDeadlines).map (fun r => r.dp_priority)
            ↔ 1 ≤ v ∧ v ≤ 2) := by
  refine ⟨by decide, by decide, by decide, ?_⟩
  intro h
  exact absurd ((h 2).mpr ⟨by decide, by decide⟩) (by decide)

/-- C17, amended: when the identifiers and the deadlines are pairwise distinct (fewer than
`2 ^ 31` records), the promoted priorities after `calculate_Pri2_RM` are a permutation of
`1, ..., n`. -/
theorem calculate_Pri2_RM_ranks_perm (s : Store) (hnd : (ids s).Nodup)
    (hdl : (s.map (fun r => r.tsk_D)).Nodup) (hlen : s.length < 2 ^ 31) :
    List.Perm ((calculate_Pri2_RM s).map (fun r => r.dp_priority))
      ((List.range s.length).map (fun k : Nat => (k : Int) + 1)) := by
  have hranks : (calculate_Pri2_RM s).map (fun r => r.dp_priority)
      = s.map (fun r => (earlierCount s r.tsk_D : Int) + 1) := by
    rw [calculate_Pri2_RM_eq_map s hnd, List.map_map]
    apply List.map_congr_left
    intro r hr
    simp only [Function.comp]
    rw [calculate_Pri2_RM_inner_eq s r hr hlen]
    ring
  rw [hranks]
  have hnodup : (s.map (fun r => (earlierCount s r.tsk_D : Int) + 1)).Nodup := by
    apply List.Nodup.map_on _ (List.Nodup.of_map _ hdl)
    intro a ha b hb hab
    have h1 : earlierCount s a.tsk_D = earlierCount s b.tsk_D := by omega
    exact List.inj_on_of_nodup_map hdl ha hb (earlierCount_inj s a b ha hb h1)
  have hsub : s.map (fun r => (earlierCount s r.tsk_D : Int) + 1)
      ⊆ (List.range s.length).map (fun k : Nat => (k : Int) + 1) := by
    intro v hv
    obtain ⟨r, hr, rfl⟩ := List.mem_map.mp hv
    exact List.mem_map.mpr ⟨earlierCount s r.tsk_D,
      List.mem_range.mpr (earlierCount_lt_length s r hr), rfl⟩
  exact (List.subperm_of_subset hnodup hsub).perm_of_length_le (by simp)

theorem calculate_Pri2_RM_ranks_perm_witness :
    List.Perm ((calculate_Pri2_RM threeTasks).map (fun r => r.dp_priority))
      ((List.range threeTasks.length).map (fun k : Nat => (k : Int) + 1)) :=
  calculate_Pri2_RM_ranks_perm threeTasks (by decide) (by decide) (by decide)

/-! ## Re-arming -/

/-- C18, as stated, fails: in `firedState` the list is non-empty, the timer is not armed,
no record is `Armed`, the candidate 1 is `AwaitingArm`, live, preemptible, with trigger time
14 after the clock value 0; record 3 is `Fired`, `dp_is_TimerARM` returns 1 and
`update_enforcement_timer` changes nothing. -/
theorem update_after_firing_does_not_rearm :
    firedState.dp_ListHead ≠ []
      ∧ firedState.budget_timer.armed = 0
      ∧ armedCount firedState.dp_ListHead = 0
      ∧ dp_get_PID_earliest_trigger_time firedState.dp_ListHead = 1
      ∧ dp_get_tmrStatus firedState.dp_ListHead 1 = 1
      ∧ find_live 1 = some { pid := 1, is_np := false }
      ∧ dp_get_time_to_Fire firedState.dp_ListHead 1 > 0
      ∧ update_enforcement_timer find_live 0 firedState = firedState
      ∧ ¬ (dp_get_tmrStatus (update_enforcement_timer find_live 0 firedState).dp_ListHead 1 = 2
            ∧ (update_enforcement_timer find_live 0 firedState).budget_timer.armed = 1) := by
  decide

theorem dp_is_TimerARM_zero_of_none (s : Store)
    (h : ∀ r ∈ s, r.dp_timerStatus ≠ 2 ∧ r.dp_timerStatus ≠ 3) : dp_is_TimerARM s = 0 := by
  unfold dp_is_TimerARM
  split
  · rename_i r hsome
    have hr := List.mem_of_find?_eq_some hsome
    have hp := List.find?_some hsome
    simp only [decide_eq_true_eq] at hp
    have := h r hr
    omega
  · rfl

theorem find?_pid_map (s : Store) (f : dp_list → dp_list)
    (hf : ∀ r, (f r).dp_pid = r.dp_pid) (q : Int) :
    (s.map f).find? (fun objPtr => decide (objPtr.dp_pid = q))
      = (s.find? (fun objPtr => decide (objPtr.dp_pid = q))).map f := by
  rw [List.find?_map]
  congr 2
  funext r
  simp only [Function.comp, hf]

theorem dp_set_tmrStatus_pid (p v : Int) (r : dp_list) :
    (if r.dp_pid = p then { r with dp_timerStatus := v } else r).dp_pid = r.dp_pid := by
  split <;> rfl

theorem dp_get_tmrStatus_set_self (s : Store) (p : Int) (v : Int) (h : p ∈ ids s) :
    dp_get_tmrStatus (dp_set_tmrStatus s p v) p = v := by
  unfold dp_set_tmrStatus dp_get_tmrStatus
  rw [find?_pid_map s _ (dp_set_tmrStatus_pid p v) p]
  cases hfind : s.find? (fun objPtr => decide (objPtr.dp_pid = p)) with
  | none =>
    exfalso
    obtain ⟨r, hr, hrp⟩ := List.mem_map.mp h
    have := List.find?_eq_none.mp hfind r hr
    simp only [decide_eq_true_eq] at this
    exact this hrp
  | some o =>
    have ho := List.find?_some hfind
    simp only [decide_eq_true_eq] at ho
    simp only [Option.map_some', if_pos ho]

theorem dp_get_time_to_Fire_set_tmrStatus (s : Store) (p q : Int) (v : Int) :
    dp_get_time_to_Fire (dp_set_tmrStatus s p v) q = dp_get_time_to_Fire s q := by
  unfold dp_set_tmrStatus dp_get_time_to_Fire
  rw [find?_pid_map s _ (dp_set_tmrStatus_pid p v) q]
  cases s.find? (fun objPtr => decide (objPtr.dp_pid = q)) with
  | none => rfl
  | some o =>
    simp only [Option.map_some']
    split <;> rfl

/-- C18, amended: in a state with a non-empty list (pairwise distinct identifiers, fewer
than `2 ^ 31` records) in which no record is `Armed` or `Fired`, if the selector's candidate
is a positive identifier that resolves to a live preemptible task of that pid and its trigger
time is strictly after the clock value, `update_enforcement_timer` turns the candidate from
`AwaitingArm` to `Armed`, programs the timer for its trigger time and sets `armed`. -/
theorem update_enforcement_timer_rearms (find_task_by_vpid : Int → Option task_struct)
    (litmus_clock : Nat) (st : State) (t : task_struct)
    (hnd : (ids st.dp_ListHead).Nodup) (hne : st.dp_ListHead ≠ [])
    (hlen : st.dp_ListHead.length < 2 ^ 31)
    (hnone : ∀ r ∈ st.dp_ListHead, r.dp_timerStatus ≠ 2 ∧ r.dp_timerStatus ≠ 3)
    (hpos : dp_get_PID_earliest_trigger_time st.dp_ListHead > 0)
    (hfind : find_task_by_vpid (dp_get_PID_earliest_trigger_time st.dp_ListHead) = some t)
    (hpid : t.pid = dp_get_PID_earliest_trigger_time st.dp_ListHead)
    (hnp : t.is_np = false)
    (htime : dp_get_time_to_Fire st.dp_ListHead
        (dp_get_PID_earliest_trigger_time st.dp_ListHead) > litmus_clock) :
    update_enforcement_timer find_task_by_vpid litmus_clock st
        = { dp_ListHead := dp_set_tmrStatus st.dp_ListHead
              (dp_get_PID_earliest_trigger_time st.dp_ListHead) 2
            budget_timer :=
              { timer := dp_get_time_to_Fire st.dp_ListHead
                  (dp_get_PID_earliest_trigger_time st.dp_ListHead)
                armed := 1 }
            PID_No_To_Trigger := dp_get_PID_earliest_trigger_time st.dp_ListHead }
      ∧ dp_get_tmrStatus st.dp_ListHead (dp_get_PID_earliest_trigger_time st.dp_ListHead) = 1
      ∧ dp_get_tmrStatus
          (update_enforcement_timer find_task_by_vpid litmus_clock st).dp_ListHead
          (dp_get_PID_earliest_trigger_time st.dp_ListHead) = 2
      ∧ (update_enforcement_timer find_task_by_vpid litmus_clock st).budget_timer.armed = 1 := by
  have harm := dp_is_TimerARM_zero_of_none st.dp_ListHead hnone
  have hsz : dp_Size st.dp_ListHead > 0 := by
    rw [dp_Size_eq_length _ hlen]
    have : 0 < st.dp_ListHead.length := List.length_pos.mpr hne
    omega
  obtain ⟨r, hr, hst, hrp⟩ :=
    selector_awaiting_of_ne_zero st.dp_ListHead hnd (by omega)
  have hmem : dp_get_PID_earliest_trigger_time st.dp_ListHead ∈ ids st.dp_ListHead :=
    hrp ▸ List.mem_map_of_mem _ hr
  have hstat : dp_get_tmrStatus st.dp_ListHead
      (dp_get_PID_earliest_trigger_time st.dp_ListHead) = 1 := by
    rw [← hrp, dp_get_tmrStatus_of_mem _ hnd r hr]; exact hst
  have hset := dp_get_tmrStatus_set_self st.dp_ListHead _ 2 hmem
  have heq : update_enforcement_timer find_task_by_vpid litmus_clock st
        = { dp_ListHead := dp_set_tmrStatus st.dp_ListHead
              (dp_get_PID_earliest_trigger_time st.dp_ListHead) 2
            budget_timer :=
              { timer := dp_get_time_to_Fire st.dp_ListHead
                  (dp_get_PID_earliest_trigger_time st.dp_ListHead)
                armed := 1 }
            PID_No_To_Trigger := dp_get_PID_earliest_trigger_time st.dp_ListHead } := by
    unfold update_enforcement_timer
    rw [if_pos hsz]
    simp only [if_pos harm, if_pos hpos, hfind]
    rw [if_pos ⟨harm, hstat, htime⟩]
    unfold arm_enforcement_timer
    simp only [hpid, hnp, hset, dp_get_time_to_Fire_set_tmrStatus]
    simp
  refine ⟨heq, hstat, ?_, ?_⟩
  · rw [heq]; exact hset
  · rw [heq]

theorem update_enforcement_timer_rearms_witness :
    (update_enforcement_timer find_live 0 awaitingState2).budget_timer.armed = 1 :=
  (update_enforcement_timer_rearms find_live 0 awaitingState2 ⟨3, false⟩ (by decide) (by decide)
    (by decide) (by decide) (by decide) (by decide) (by decide) (by decide)
    (by decide)).2.2.2


/-! ## The point pass below zero -/

theorem dp_get_PrPoint_of_mem (s : Store) (hnd : (ids s).Nodup) (o : dp_list) (ho : o ∈ s) :
    dp_get_PrPoint s o.dp_pid = int_to_lt (lt_to_int o.dp_PrPoint) := by
  unfold dp_get_PrPoint
  rw [find?_pid_of_mem s hnd o ho]

theorem point_pattern_neg (D C S : Nat) (hS : D < C + S) :
    (D : Int) - C - S = -((C + S - D : Nat) : Int) := by
  omega

theorem neg_pattern_signed (d : Nat) (h0 : 0 < d) (hr : d ≤ 2 ^ 63) :
    lt_to_signed ((-(d : Int)) % 2 ^ 64).toNat = -(d : Int) := by
  unfold lt_to_signed
  omega

theorem neg_pattern_unsigned (d : Nat) (h0 : 0 < d) (hr : d < 2 ^ 64) :
    ((-(d : Int)) % 2 ^ 64).toNat = 2 ^ 64 - d := by
  omega

theorem neg_pattern_int (d : Nat) (h0 : 0 < d) (hr : d ≤ 2 ^ 31) :
    int_to_lt (lt_to_int ((-(d : Int)) % 2 ^ 64).toNat) = ((-(d : Int)) % 2 ^ 64).toNat := by
  unfold int_to_lt lt_to_int int_wrap
  omega

/-- C16, as stated, fails, whether the stored pattern is read as signed or as unsigned: in
`hugeDeficitTasks` task 1 has D = 0 below C + S = `2 ^ 64 - 1`; the point pass stores the
pattern 1 in its record, which is 1 in both readings, not the negative `D - C - S`, and
`dp_get_PrPoint` returns 1. -/
theorem calculate_ProPoint_not_negative :
    (ids hugeDeficitTasks).Nodup
      ∧ hugeDeficitTasks[2]? = some ⟨1, 9223372036854775807, 0, 3, 1, 0, 1, 0⟩
      ∧ higherSum hugeDeficitTasks ⟨1, 9223372036854775807, 0, 3, 1, 0, 1, 0⟩
          = 9223372036854775808
      ∧ 0 < 9223372036854775807
            + higherSum hugeDeficitTasks ⟨1, 9223372036854775807, 0, 3, 1, 0, 1, 0⟩
      ∧ (calculate_ProPoint hugeDeficitTasks)[2]?
          = some ⟨1, 9223372036854775807, 0, 3, 1, 1, 1, 0⟩
      ∧ lt_to_signed 1 = 1
      ∧ dp_get_PrPoint (calculate_ProPoint hugeDeficitTasks) 1 = 1
      ∧ ¬ (lt_to_signed 1 = 0 - 9223372036854775807 - 9223372036854775808
            ∧ lt_to_signed 1 ≤ 0) := by
  decide

/-- C16, amended: when the identifiers are pairwise distinct and `D(A) < C(A) + S`,
`calculate_ProPoint` stores in the record of `A` the 64-bit pattern of `D(A) - C(A) - S`,
that is, the difference reduced modulo `2 ^ 64` (not clamped to zero). With the deficit
`C(A) + S - D(A)` at most `2 ^ 63`, the pattern read as a signed number is the negative value
`D(A) - C(A) - S`; with the deficit below `2 ^ 64`, read as unsigned it is `2 ^ 64` minus
the deficit, a strictly positive number; with the deficit at most `2 ^ 31`, `dp_get_PrPoint`
returns the same pattern. -/
theorem calculate_ProPoint_wraps (s : Store) (i : Nat) (A : dp_list)
    (hnd : (ids s).Nodup) (hA : s[i]? = some A)
    (hS : A.tsk_D < A.tsk_C + higherSum s A) :
    (calculate_ProPoint s)[i]?
        = some { A with dp_PrPoint :=
            (((A.tsk_D : Int) - A.tsk_C - higherSum s A) % 2 ^ 64).toNat }
      ∧ (A.tsk_C + higherSum s A - A.tsk_D ≤ 2 ^ 63 →
          lt_to_signed (((A.tsk_D : Int) - A.tsk_C - higherSum s A) % 2 ^ 64).toNat
              = (A.tsk_D : Int) - A.tsk_C - higherSum s A
            ∧ lt_to_signed (((A.tsk_D : Int) - A.tsk_C - higherSum s A) % 2 ^ 64).toNat < 0)
      ∧ (A.tsk_C + higherSum s A - A.tsk_D < 2 ^ 64 →
          (((A.tsk_D : Int) - A.tsk_C - higherSum s A) % 2 ^ 64).toNat
              = 2 ^ 64 - (A.tsk_C + higherSum s A - A.tsk_D)
            ∧ 0 < (((A.tsk_D : Int) - A.tsk_C - higherSum s A) % 2 ^ 64).toNat)
      ∧ (A.tsk_C + higherSum s A - A.tsk_D ≤ 2 ^ 31 →
          dp_get_PrPoint (calculate_ProPoint s) A.dp_pid
            = (((A.tsk_D : Int) - A.tsk_C - higherSum s A) % 2 ^ 64).toNat) := by
  have hstored : (calculate_ProPoint s)[i]?
        = some { A with dp_PrPoint :=
            (((A.tsk_D : Int) - A.tsk_C - higherSum s A) % 2 ^ 64).toNat } := by
    rw [calculate_ProPoint_eq_map s hnd, List.getElem?_map, hA, Option.map_some',
      calculate_ProPoint_inner_eq]
    have : lt_sub (lt_sub A.tsk_D A.tsk_C) (higherSum s A % LT_MOD)
        = (((A.tsk_D : Int) - A.tsk_C - higherSum s A) % 2 ^ 64).toNat := by
      unfold lt_sub LT_MOD; omega
    rw [this]
  have hnd2 : (ids (calculate_ProPoint s)).Nodup := by
    rw [calculate_ProPoint_ids s hnd]; exact hnd
  have hget := dp_get_PrPoint_of_mem (calculate_ProPoint s) hnd2 _ (List.getElem?_mem hstored)
  simp only [] at hget
  have h0 : 0 < A.tsk_C + higherSum s A - A.tsk_D := Nat.sub_pos_of_lt hS
  rw [hget, point_pattern_neg A.tsk_D A.tsk_C (higherSum s A) hS] at *
  refine ⟨hstored, ?_, ?_, ?_⟩
  · intro hr
    have h := neg_pattern_signed _ h0 hr
    rw [h]
    exact ⟨rfl, by omega⟩
  · intro hr
    have h := neg_pattern_unsigned _ h0 hr
    rw [h]
    exact ⟨rfl, by omega⟩
  · intro hr
    exact neg_pattern_int _ h0 hr

theorem calculate_ProPoint_wraps_witness :
    (calculate_ProPoint lateTask)[0]?
      = some ⟨1, 5, 3, 1, 1, (((3 : Int) - 5 - (0 : Nat)) % 2 ^ 64).toNat, 1, 0⟩ :=
  (calculate_ProPoint_wraps lateTask 0 ⟨1, 5, 3, 1, 1, 0, 1, 0⟩ (by decide) (by rfl)
    (by decide)).1

end DPSched
